import Mathlib

/-!
# musicwave: the playback engine of `MusicPlayer`

A shallow embedding of `src/MusicPlayer.cpp` / `src/MusicPlayer.h`.

* The object's fields become the structure `MusicPlayer`; every member function
  becomes a function on that structure which also returns the C++ return value
  and the list of device / thread / library calls it issued (`Outcome`).
* The decode worker (`decodingLoop`) is a step function `workerStep`: one call
  is one pass through the body of the `while (!m_shouldStop)` loop, or one poll
  of the end-of-stream wait loop.  What FFmpeg and SDL answer in that pass is
  the argument `WorkerInput`.
* Caller operations and worker steps interleave at that granularity
  (`Op`, `run`, `Reachable`); a run ends with `none` when the program is
  terminated.
* `double` quantities are rationals (the operations on them are copies,
  comparisons and the arithmetic of the timestamp update); the `float` volume
  keeps NaN and the infinities apart (`Fp`), because `setVolume` accepts any
  `float`, and the `float` product of the volume loop is rounded to binary32
  (`roundF32`) before it is truncated.
-/

namespace MusicWave

/-! ## Scalar types -/

/-- Values of a C++ `float`, as far as ordering is concerned: NaN, the two
infinities, and the finite values (a rational; the two zeros coincide). -/
inductive Fp where
  | nan
  | negInf
  | fin (q : ℚ)
  | posInf
deriving DecidableEq

/-- The C++ `a < b` on floats: false as soon as one side is NaN. -/
def Fp.lt : Fp → Fp → Bool
  | .nan, _ => false
  | _, .nan => false
  | _, .negInf => false
  | .negInf, _ => true
  | .posInf, _ => false
  | .fin _, .posInf => true
  | .fin a, .fin b => decide (a < b)

/-- The C++ `a <= b` on floats: false as soon as one side is NaN. -/
def Fp.le : Fp → Fp → Bool
  | .nan, _ => false
  | _, .nan => false
  | .negInf, _ => true
  | _, .posInf => true
  | .posInf, _ => false
  | _, .negInf => false
  | .fin a, .fin b => decide (a ≤ b)

/-- `std::min(a, b)`: `(b < a) ? b : a`. -/
def stdMin (a b : Fp) : Fp := if Fp.lt b a then b else a

/-- `std::max(a, b)`: `(a < b) ? b : a`. -/
def stdMax (a b : Fp) : Fp := if Fp.lt a b then b else a

/-- `enum class State`. -/
inductive State where
  | STOPPED
  | PLAYING
  | PAUSED
deriving DecidableEq, Repr

/-- Where the worker is inside `decodingLoop`. -/
inductive Pc where
  /-- the thread function has been entered, `av_frame_alloc` not yet called -/
  | entry
  /-- at the test of `while (!m_shouldStop.load())` -/
  | loopHead
  /-- inside the wait loop of the end-of-stream branch -/
  | draining
deriving DecidableEq, Repr

/-- The member `std::thread m_decodingThread` together with the thread of
execution behind it. -/
inductive Thread where
  /-- default-constructed or joined: `joinable()` is false -/
  | notJoinable
  /-- `decodingLoop` is executing -/
  | running (pc : Pc)
  /-- `decodingLoop` has returned, the handle was not joined: `joinable()` is
  still true -/
  | finished
deriving DecidableEq, Repr

/-- `std::thread::joinable()`. -/
def Thread.joinable : Thread → Bool
  | .notJoinable => false
  | _ => true

/-- A worker is alive: the thread function has not returned. -/
def Thread.alive : Thread → Bool
  | .running _ => true
  | _ => false

/-- `SDL_AudioSpec`, the fields the player reads. -/
structure AudioSpec where
  freq : Int
  channels : Nat
  samples : Nat
deriving DecidableEq, Repr

/-- `AVCodecContext`, the fields the player reads. -/
structure CodecContext where
  sample_rate : Int
  nb_channels : Int
deriving DecidableEq, Repr

/-- What `swr_alloc_set_opts2` was given. -/
structure SwrContext where
  out_channels : Int
  out_sample_rate : Int
  in_channels : Int
  in_sample_rate : Int
deriving DecidableEq, Repr

/-- `AVStream`, the field the player reads (`time_base`, as `av_q2d` sees it). -/
structure AVStream where
  time_base : ℚ
deriving DecidableEq

/-- The fields of `class MusicPlayer`.  A pointer whose pointee is never read
is a `Bool` (non-null); the others carry what is read through them. -/
structure MusicPlayer where
  m_formatContext : Bool
  m_codecContext : Option CodecContext
  m_swrContext : Option SwrContext
  m_audioStream : Option AVStream
  m_audioDevice : Nat
  m_audioSpec : AudioSpec
  m_state : State
  m_volume : Fp
  m_currentTime : ℚ
  m_seekRequested : Bool
  m_seekTime : ℚ
  m_decodingThread : Thread
  m_shouldStop : Bool
  m_currentFile : String
  m_duration : ℚ
  m_audioStreamIndex : Int
deriving DecidableEq

/-- The constructor's member initialisers (`m_audioSpec` is left
uninitialised by the source; it is zeroed here). -/
def MusicPlayer.init : MusicPlayer where
  m_formatContext := false
  m_codecContext := none
  m_swrContext := none
  m_audioStream := none
  m_audioDevice := 0
  m_audioSpec := ⟨0, 0, 0⟩
  m_state := State.STOPPED
  m_volume := Fp.fin 1
  m_currentTime := 0
  m_seekRequested := false
  m_seekTime := 0
  m_decodingThread := Thread.notJoinable
  m_shouldStop := false
  m_currentFile := ""
  m_duration := 0
  m_audioStreamIndex := -1

/-! ## Volume -/

/-- `MusicPlayer::setVolume`. -/
def setVolume (volume : Fp) (s : MusicPlayer) : MusicPlayer :=
  { s with m_volume := stdMax (Fp.fin 0) (stdMin (Fp.fin 1) volume) }

/-- `MusicPlayer::getVolume`. -/
def getVolume (s : MusicPlayer) : Fp := s.m_volume

/-! ## Calls and outcomes -/

/-- A call into SDL, FFmpeg or the thread library that a member function
issues; the list a function returns is in program order. -/
inductive Call where
  /-- `SDL_PauseAudioDevice(dev, pause_on)` -/
  | pauseAudioDevice (dev : Nat) (pause_on : Nat)
  /-- `SDL_ClearQueuedAudio(dev)` -/
  | clearQueuedAudio (dev : Nat)
  /-- `SDL_CloseAudioDevice(dev)` -/
  | closeAudioDevice (dev : Nat)
  /-- `SDL_Quit()` -/
  | sdlQuit
  /-- `m_queueCondition.notify_all()` -/
  | notifyAll
  /-- construction of a `std::thread` running `decodingLoop` -/
  | threadStart
  /-- `m_decodingThread.join()` -/
  | threadJoin
  /-- `av_seek_frame(m_formatContext, -1, target, AVSEEK_FLAG_BACKWARD)` -/
  | seekFrame (target : Int)
  /-- `avcodec_flush_buffers(m_codecContext)` -/
  | flushBuffers
  /-- `av_read_frame(m_formatContext, &packet)` -/
  | readFrame
  /-- `avcodec_send_packet(m_codecContext, &packet)` -/
  | sendPacket
  /-- `SDL_QueueAudio(dev, output, size)`; `samples` are the 16-bit values in
  the first `size` bytes of `output` -/
  | queueAudio (dev : Nat) (samples : List Int) (size : Int)
  /-- `std::this_thread::sleep_for(std::chrono::milliseconds(ms))` -/
  | sleepMs (ms : Nat)
deriving DecidableEq

/-- What a member function leaves behind: its return value, the object, and
the calls it made. -/
structure Outcome (α : Type) where
  ret : α
  st : MusicPlayer
  calls : List Call

/-! ## Transport control -/

/-- `MusicPlayer::stop`.  `join()` returns once `decodingLoop` has returned;
with `m_shouldStop` set the worker leaves at its next test of the flag without
writing any field but `m_state` (`workerStep_stop_signalled`), so the
join leaves the handle not joinable and nothing else changed. -/
def stop (s : MusicPlayer) : Outcome Bool :=
  if s.m_state = State.STOPPED then ⟨true, s, []⟩
  else
    let s1 := { s with m_shouldStop := true, m_state := State.STOPPED }
    let c1 := if s1.m_audioDevice ≠ 0 then
        [Call.pauseAudioDevice s1.m_audioDevice 1, Call.clearQueuedAudio s1.m_audioDevice]
      else []
    let c2 := [Call.notifyAll]
    let s2 := if s1.m_decodingThread.joinable then
        { s1 with m_decodingThread := Thread.notJoinable }
      else s1
    let c3 := if s1.m_decodingThread.joinable then [Call.threadJoin] else []
    ⟨true, { s2 with m_currentTime := 0 }, c1 ++ c2 ++ c3⟩

/-- `MusicPlayer::pause`. -/
def pause (s : MusicPlayer) : Outcome Bool :=
  if s.m_state = State.PLAYING then
    ⟨true, { s with m_state := State.PAUSED }, [Call.pauseAudioDevice s.m_audioDevice 1]⟩
  else ⟨false, s, []⟩

/-- `MusicPlayer::seek`. -/
def seek (seconds : ℚ) (s : MusicPlayer) : Outcome Bool :=
  if s.m_currentFile = "" then ⟨false, s, []⟩
  else ⟨true, { s with m_seekTime := seconds, m_seekRequested := true }, []⟩

/-- `MusicPlayer::play`.  `none` is `std::terminate()`: the move assignment
`m_decodingThread = std::thread(...)` terminates the program when the handle
assigned to is joinable. -/
def play (s : MusicPlayer) : Option (Outcome Bool) :=
  if s.m_state = State.PLAYING then some ⟨true, s, []⟩
  else if s.m_currentFile = "" then some ⟨false, s, []⟩
  else if s.m_state = State.PAUSED then
    some ⟨true, { s with m_state := State.PLAYING }, [Call.pauseAudioDevice s.m_audioDevice 0]⟩
  else
    let s1 := { s with m_shouldStop := false, m_state := State.PLAYING }
    if s1.m_decodingThread.joinable then none
    else
      some ⟨true, { s1 with m_decodingThread := Thread.running Pc.entry },
        [Call.threadStart, Call.pauseAudioDevice s1.m_audioDevice 0]⟩

/-- `MusicPlayer::getState`. -/
def getState (s : MusicPlayer) : State := s.m_state

/-- `MusicPlayer::getCurrentTime`. -/
def getCurrentTime (s : MusicPlayer) : ℚ := s.m_currentTime

/-- `MusicPlayer::getDuration`. -/
def getDuration (s : MusicPlayer) : ℚ := s.m_duration

/-- `MusicPlayer::getCurrentFile`. -/
def getCurrentFile (s : MusicPlayer) : String := s.m_currentFile

/-! ## Loading -/

/-- `MusicPlayer::cleanup`: each `if (p) free(&p)` leaves `p` null. -/
def cleanup (s : MusicPlayer) : Outcome Unit :=
  let c1 := if s.m_audioDevice ≠ 0 then [Call.closeAudioDevice s.m_audioDevice] else []
  ⟨(), { s with m_audioDevice := 0, m_swrContext := none, m_codecContext := none,
                m_formatContext := false },
   c1 ++ [Call.sdlQuit]⟩

/-- `AVMediaType`, as far as `loadFile` distinguishes it. -/
inductive MediaType where
  | audio
  | other
deriving DecidableEq, Repr

/-- One entry of `m_formatContext->streams`. -/
structure StreamInfo where
  codec_type : MediaType
  time_base : ℚ
deriving DecidableEq

/-- What the libraries answer during one `loadFile`. -/
structure LoadEnv where
  /-- `avformat_alloc_context()` is not null -/
  allocFormat : Bool
  /-- `avformat_open_input(...) == 0` -/
  openInput : Bool
  /-- `avformat_find_stream_info(...) >= 0` -/
  findStreamInfo : Bool
  /-- the container's streams -/
  streams : List StreamInfo
  /-- `avcodec_find_decoder(...)` is not null -/
  findDecoder : Bool
  /-- `avcodec_alloc_context3(codec)` is not null -/
  allocCodec : Bool
  /-- `avcodec_parameters_to_context(...) >= 0` -/
  parametersToContext : Bool
  /-- what the codec context holds after the parameters were copied -/
  codecpar : CodecContext
  /-- `avcodec_open2(...) >= 0` -/
  openCodec : Bool
  /-- `m_formatContext->duration`; `none` is `AV_NOPTS_VALUE` -/
  duration : Option Int
  /-- the non-null `SDL_GetAudioDeviceName(i, 0)`, in order -/
  deviceNames : List String
  /-- `SDL_OpenAudioDevice(name, 0, &wanted, &obtained, flags)`:
  the device id (0 on failure) and `obtained` -/
  openAudioDevice : Option String → AudioSpec → Nat → Nat × AudioSpec
  /-- `SDL_Init(SDL_INIT_AUDIO) >= 0` in the last-resort branch -/
  reinit : Bool
  /-- `swr_alloc()` is not null -/
  swrAlloc : Bool
  /-- `swr_alloc_set_opts2(...) >= 0` -/
  swrSetOpts : Bool
  /-- `swr_init(...) >= 0` -/
  swrInit : Bool

/-- The `allowFlags` vector of `setupAudioConversion`
(`SDL_AUDIO_ALLOW_FREQUENCY_CHANGE` = 1, `_FORMAT_CHANGE` = 2,
`_CHANNELS_CHANGE` = 4). -/
def allowFlags : List Nat := [1 ||| 4 ||| 2, 1 ||| 4, 1, 0]

/-- `SDL_AUDIO_ALLOW_ANY_CHANGE`. -/
def SDL_AUDIO_ALLOW_ANY_CHANGE : Nat := 1 ||| 2 ||| 4 ||| 8

/-- One `for (auto flags : allowFlags)` loop of `setupAudioConversion` on the
device `name`: every attempt assigns `m_audioDevice`; the first success also
assigns `m_audioSpec` and leaves the loop. -/
def tryFlags (env : LoadEnv) (name : Option String) (wanted : AudioSpec) :
    List Nat → MusicPlayer → MusicPlayer
  | [], s => s
  | f :: fs, s =>
    let r := env.openAudioDevice name wanted f
    if r.1 ≠ 0 then { s with m_audioDevice := r.1, m_audioSpec := r.2 }
    else tryFlags env name wanted fs { s with m_audioDevice := 0 }

/-- The loop over `deviceNames` of `setupAudioConversion`, left by
`goto audio_success` at the first device that opens. -/
def tryDevices (env : LoadEnv) (wanted : AudioSpec) :
    List String → MusicPlayer → MusicPlayer
  | [], s => s
  | n :: ns, s =>
    let s1 := tryFlags env (some n) wanted allowFlags s
    if s1.m_audioDevice ≠ 0 then s1 else tryDevices env wanted ns s1

/-- `MusicPlayer::setupAudioConversion`.  It is only called with a codec
context (`cc`, what `m_codecContext` points to). -/
def setupAudioConversion (env : LoadEnv) (cc : CodecContext) (s : MusicPlayer) :
    Bool × MusicPlayer :=
  -- wanted.channels is a Uint8
  let wanted : AudioSpec := ⟨cc.sample_rate, (cc.nb_channels % 256).toNat, 8192⟩
  let s1 := tryFlags env none wanted allowFlags s
  let s2 := if s1.m_audioDevice = 0 then tryDevices env wanted env.deviceNames s1 else s1
  let s3 :=
    if s2.m_audioDevice = 0 then
      if env.reinit then
        let r := env.openAudioDevice none wanted SDL_AUDIO_ALLOW_ANY_CHANGE
        if r.1 ≠ 0 then { s2 with m_audioDevice := r.1, m_audioSpec := r.2 }
        else { s2 with m_audioDevice := 0 }
      else s2
    else s2
  if s3.m_audioDevice = 0 then (false, s3)
  else if env.swrAlloc = false then (false, { s3 with m_swrContext := none })
  else if env.swrSetOpts = false then (false, { s3 with m_swrContext := none })
  else
    -- out_ch_layout is AV_CHANNEL_LAYOUT_STEREO, out_sample_rate is m_audioSpec.freq
    let swr : SwrContext :=
      { out_channels := 2, out_sample_rate := s3.m_audioSpec.freq,
        in_channels := cc.nb_channels, in_sample_rate := cc.sample_rate }
    let s4 := { s3 with m_swrContext := some swr }
    if env.swrInit = false then (false, s4) else (true, s4)

/-- The search for the first audio stream in `loadFile`, from index `i` on:
`-1` when there is none. -/
def findAudioStream : List StreamInfo → Nat → Int
  | [], _ => -1
  | st :: rest, i =>
    if st.codec_type = MediaType.audio then (i : Int) else findAudioStream rest (i + 1)

/-- `AV_TIME_BASE`. -/
def AV_TIME_BASE : Int := 1000000

/-- `MusicPlayer::loadFile` after its first two statements (`stop();
cleanup();`): the return value and the object. -/
def loadFileBody (env : LoadEnv) (filename : String) (s0 : MusicPlayer) : Bool × MusicPlayer :=
  if env.allocFormat = false then (false, { s0 with m_formatContext := false })
  else
  let s1 := { s0 with m_formatContext := true }
  -- avformat_open_input frees the context and nulls the pointer when it fails
  if env.openInput = false then (false, { s1 with m_formatContext := false })
  else if env.findStreamInfo = false then (false, s1)
  else
  let idx := findAudioStream env.streams 0
  let s2 := { s1 with m_audioStreamIndex := idx }
  if idx = -1 then (false, s2)
  else
  let s3 := { s2 with
    m_audioStream := (env.streams.get? idx.toNat).map (fun st => AVStream.mk st.time_base) }
  if env.findDecoder = false then (false, s3)
  else if env.allocCodec = false then (false, { s3 with m_codecContext := none })
  else
  let s4 := { s3 with m_codecContext := some ⟨0, 0⟩ }
  if env.parametersToContext = false then (false, s4)
  else
  let s5 := { s4 with m_codecContext := some env.codecpar }
  if env.openCodec = false then (false, s5)
  else
  let s6 := { s5 with m_duration :=
    match env.duration with
    | some d => (d : ℚ) / (AV_TIME_BASE : ℚ)
    | none => 0 }
  let r := setupAudioConversion env env.codecpar s6
  if r.1 = false then (false, r.2)
  else (true, { r.2 with m_currentFile := filename })

/-- `MusicPlayer::loadFile`. -/
def loadFile (env : LoadEnv) (filename : String) (s : MusicPlayer) : Outcome Bool :=
  let o1 := stop s
  let o2 := cleanup o1.st
  let r := loadFileBody env filename o2.st
  ⟨r.1, r.2, o1.calls ++ o2.calls⟩

/-! ## The decode worker -/

/-- One frame that `avcodec_receive_frame` delivers, with what the resampler
does with it. -/
structure Frame where
  /-- `frame->pts`; `none` is `AV_NOPTS_VALUE` -/
  pts : Option Int
  /-- `frame->nb_samples` -/
  nb_samples : Int
  /-- `swr_get_out_samples(m_swrContext, frame->nb_samples)` -/
  outSamples : Int
  /-- `av_malloc(outputBufferSize)` is not null -/
  mallocOk : Bool
  /-- `swr_convert(...)` -/
  convertedSamples : Int
  /-- the 16-bit values in `output` after `swr_convert` -/
  buffer : List Int
deriving DecidableEq

/-- One packet that `av_read_frame` delivers, with what the decoder does with
it. -/
structure Packet where
  stream_index : Int
  /-- `packet.pts`; `none` is `AV_NOPTS_VALUE` -/
  pts : Option Int
  /-- `avcodec_send_packet(...) >= 0` -/
  sendOk : Bool
  /-- the frames `avcodec_receive_frame` returns before `EAGAIN`, `EOF` or an
  error -/
  frames : List Frame
deriving DecidableEq

/-- The result of `av_read_frame`. -/
inductive ReadResult where
  /-- `AVERROR_EOF` -/
  | eof
  /-- another negative value -/
  | error
  | packet (p : Packet)
deriving DecidableEq

/-- What the libraries answer during one worker step. -/
structure WorkerInput where
  /-- `av_frame_alloc()` is not null -/
  frameAllocOk : Bool
  /-- `SDL_GetQueuedAudioSize(m_audioDevice)` -/
  queuedBytes : Nat
  /-- `av_read_frame(...)` -/
  read : ReadResult
deriving DecidableEq

/-- `av_samples_get_buffer_size(nullptr, nb_channels, nb_samples,
AV_SAMPLE_FMT_S16, 1)`: `AVERROR(EINVAL)` on a non-positive count or when the
size does not fit an `int`. -/
def av_samples_get_buffer_size (nb_channels nb_samples : Int) : Int :=
  if nb_samples ≤ 0 ∨ nb_channels ≤ 0 then -22
  else if nb_channels * nb_samples > (2147483647 - nb_channels) / 2 then -22
  else nb_samples * 2 * nb_channels

/-- `MusicPlayer::decodeAudioFrame`: the return value and `*outputSize`
(which the caller initialised to 0). -/
def decodeAudioFrame (s : MusicPlayer) (f : Frame) : Int × Int :=
  if f.outSamples ≤ 0 then (0, 0)
  else if f.mallocOk = false then (0, 0)
  else if f.convertedSamples < 0 then (0, 0)
  else (f.convertedSamples, av_samples_get_buffer_size s.m_audioSpec.channels f.convertedSamples)

/-- Truncation toward zero, the C++ conversion of a floating value to an
integer type. -/
def truncQ (x : ℚ) : Int := Int.tdiv x.num x.den

/-- Round to the nearest integer, ties to the even one. -/
def roundHalfEven (x : ℚ) : Int :=
  let f := ⌊x⌋
  let r := x - f
  if r < 1 / 2 then f
  else if 1 / 2 < r then f + 1
  else if f % 2 = 0 then f else f + 1

/-- The exponent of the binade of `x > 0`, looked for from `2^(n - 127)`
downwards and never below the smallest normal exponent `-126`. -/
def binade (x : ℚ) : Nat → Int
  | 0 => -126
  | n + 1 => if (2 : ℚ) ^ ((n : Int) - 126) ≤ x then (n : Int) - 126 else binade x n

/-- Rounding of a real to a `float` (IEEE binary32: 24 significant bits,
round to nearest even, gradual underflow; magnitudes below `2^128`). -/
def roundF32 (x : ℚ) : ℚ :=
  let ulp : ℚ := (2 : ℚ) ^ (binade |x| 254 - 23)
  (roundHalfEven (x / ulp) : ℚ) * ulp

/-- The `float` literal `0.99f`. -/
def vol099 : Fp := Fp.fin (16609444 / 16777216)

/-- `static_cast<int16_t>(samples[i] * vol)`: the sample is promoted to
`float`, the product is a `float`, the conversion truncates.  A product that
is not finite has no defined conversion (0 here; `setVolume` keeps the volume
finite), nor has one outside the 16-bit range (the truncated value is kept). -/
def scaleSample (vol : Fp) (x : Int) : Int :=
  match vol with
  | Fp.fin q => truncQ (roundF32 ((x : ℚ) * q))
  | _ => 0

/-- `int sampleCount = outputSize / sizeof(int16_t)`: the division is done in
`size_t`, the result converted back to `int`. -/
def sampleCount (outputSize : Int) : Int :=
  let u := (outputSize % 2 ^ 64) / 2
  let w := u % 2 ^ 32
  if w < 2 ^ 31 then w else w - 2 ^ 32

/-- The volume loop of `decodingLoop`: the first `n` values are scaled. -/
def applyVolume (vol : Fp) (n : Int) (buffer : List Int) : List Int :=
  (buffer.take n.toNat).map (scaleSample vol) ++ buffer.drop n.toNat

/-- `m_codecContext->sample_rate` (0 through a null pointer, which the source
never tests for). -/
def sampleRate (s : MusicPlayer) : Int :=
  match s.m_codecContext with
  | some cc => cc.sample_rate
  | none => 0

/-- `av_q2d(m_audioStream->time_base)` (0 through a null pointer). -/
def timeBase (s : MusicPlayer) : ℚ :=
  match s.m_audioStream with
  | some st => st.time_base
  | none => 0

/-- `MAX_QUEUED_BYTES` of `decodingLoop`. -/
def MAX_QUEUED_BYTES : Nat := 48000 * 2 * 2

/-- The timestamp update of `decodingLoop` for one frame: the new
`m_currentTime`. -/
def frameTime (s : MusicPlayer) (p : Packet) (f : Frame) : ℚ :=
  match p.pts with
  | some pts => (pts : ℚ) * timeBase s
  | none =>
    match f.pts with
    | some fpts => (fpts : ℚ) * timeBase s
    | none => s.m_currentTime + (f.nb_samples : ℚ) / (sampleRate s : ℚ)

/-- The body of the `while (ret >= 0 && ...)` loop of `decodingLoop` for one
received frame: convert, scale, queue, update the clock. -/
def processFrame (p : Packet) (f : Frame) (s : MusicPlayer) : Outcome Unit :=
  let d := decodeAudioFrame s f
  if d.1 > 0 then
    let output :=
      if Fp.lt s.m_volume vol099 then applyVolume s.m_volume (sampleCount d.2) f.buffer
      else f.buffer
    ⟨(), { s with m_currentTime := frameTime s p f },
      [Call.queueAudio s.m_audioDevice (output.take (d.2 / 2).toNat) d.2]⟩
  else ⟨(), s, []⟩

/-- The `while (ret >= 0 && !m_shouldStop.load())` loop of `decodingLoop`
over the frames of one packet. -/
def receiveFrames (p : Packet) : List Frame → MusicPlayer → Outcome Unit
  | [], s => ⟨(), s, []⟩
  | f :: fs, s =>
    let o1 := processFrame p f s
    let o2 := receiveFrames p fs o1.st
    ⟨(), o2.st, o1.calls ++ o2.calls⟩

/-- The seek handling at the top of the loop body. -/
def serviceSeek (s : MusicPlayer) : Outcome Unit :=
  if s.m_seekRequested then
    ⟨(), { s with m_currentTime := s.m_seekTime, m_seekRequested := false },
      [Call.seekFrame (truncQ (s.m_seekTime * (AV_TIME_BASE : ℚ))), Call.flushBuffers,
       Call.clearQueuedAudio s.m_audioDevice]⟩
  else ⟨(), s, []⟩

/-- One pass of the worker from the test of `while (!m_shouldStop.load())`:
either the loop is left, or its body runs up to a `continue`, to the end of the
body, or into the end-of-stream wait. -/
def loopBody (inp : WorkerInput) (s : MusicPlayer) : Outcome Unit :=
  if s.m_shouldStop then ⟨(), { s with m_decodingThread := Thread.finished }, []⟩
  else
    let o1 := serviceSeek s
    if inp.queuedBytes > MAX_QUEUED_BYTES then
      ⟨(), o1.st, o1.calls ++ [Call.sleepMs 10]⟩
    else
      match inp.read with
      | ReadResult.eof =>
        ⟨(), { o1.st with m_decodingThread := Thread.running Pc.draining },
          o1.calls ++ [Call.readFrame]⟩
      | ReadResult.error => ⟨(), o1.st, o1.calls ++ [Call.readFrame, Call.sleepMs 1]⟩
      | ReadResult.packet p =>
        if p.stream_index = o1.st.m_audioStreamIndex then
          if p.sendOk = false then
            ⟨(), o1.st, o1.calls ++ [Call.readFrame, Call.sendPacket]⟩
          else
            let o2 := receiveFrames p p.frames o1.st
            ⟨(), o2.st, o1.calls ++ [Call.readFrame, Call.sendPacket] ++ o2.calls⟩
        else ⟨(), o1.st, o1.calls ++ [Call.readFrame]⟩

/-- One poll of the wait loop of the end-of-stream branch:
`while (SDL_GetQueuedAudioSize(...) > 0 && !m_shouldStop.load())`, and what
follows the loop, `m_state.store(State::STOPPED); break;`. -/
def drainPoll (inp : WorkerInput) (s : MusicPlayer) : Outcome Unit :=
  if inp.queuedBytes > 0 ∧ s.m_shouldStop = false then ⟨(), s, [Call.sleepMs 100]⟩
  else ⟨(), { s with m_state := State.STOPPED, m_decodingThread := Thread.finished }, []⟩

/-- One step of the thread running `MusicPlayer::decodingLoop`; nothing
happens when no worker is running. -/
def workerStep (inp : WorkerInput) (s : MusicPlayer) : Outcome Unit :=
  match s.m_decodingThread with
  | Thread.running Pc.entry =>
    if inp.frameAllocOk then ⟨(), { s with m_decodingThread := Thread.running Pc.loopHead }, []⟩
    else ⟨(), { s with m_decodingThread := Thread.finished }, []⟩
  | Thread.running Pc.loopHead => loopBody inp s
  | Thread.running Pc.draining => drainPoll inp s
  | _ => ⟨(), s, []⟩

/-- The worker run on a sequence of library answers, one step each. -/
def runWorker : List WorkerInput → MusicPlayer → MusicPlayer
  | [], s => s
  | inp :: rest, s => runWorker rest (workerStep inp s).st

/-! ## Reachable states -/

/-- One caller operation, or one step of the worker with the libraries'
answers for it. -/
inductive Op where
  | loadFile (env : LoadEnv) (filename : String)
  | play
  | pause
  | stop
  | seek (seconds : ℚ)
  | setVolume (v : Fp)
  | worker (inp : WorkerInput)

/-- The object after `op`; `none` when the program was terminated. -/
def applyOp : Op → MusicPlayer → Option MusicPlayer
  | Op.loadFile env filename, s => some (loadFile env filename s).st
  | Op.play, s => (play s).map (fun o => o.st)
  | Op.pause, s => some (pause s).st
  | Op.stop, s => some (stop s).st
  | Op.seek seconds, s => some (seek seconds s).st
  | Op.setVolume v, s => some (setVolume v s)
  | Op.worker inp, s => some (workerStep inp s).st

/-- The object after a sequence of operations and worker steps. -/
def run : List Op → MusicPlayer → Option MusicPlayer
  | [], s => some s
  | op :: ops, s =>
    match applyOp op s with
    | some t => run ops t
    | none => none

/-- The states the object takes from construction on, under load / play /
pause / stop / seek / setVolume calls and worker steps. -/
def Reachable (s : MusicPlayer) : Prop := ∃ ops, run ops MusicPlayer.init = some s

/-- The worker's `av_frame_alloc` succeeds in this step. -/
def opFrameAllocOk : Op → Bool
  | Op.worker inp => inp.frameAllocOk
  | _ => true

/-- The fields that device probing and frame processing never write. -/
def transport (s : MusicPlayer) : State × Thread × Bool × String × Bool × ℚ :=
  (s.m_state, s.m_decodingThread, s.m_shouldStop, s.m_currentFile, s.m_seekRequested,
    s.m_seekTime)

/-- The transport invariant: while the state is not `STOPPED` a track is
loaded, the stop flag is clear and the worker is alive; with `strict = false`
the worker may instead have returned without being joined. -/
def Inv (strict : Bool) (s : MusicPlayer) : Prop :=
  s.m_state ≠ State.STOPPED →
    s.m_currentFile ≠ "" ∧ s.m_shouldStop = false ∧
    (s.m_decodingThread.alive = true ∨
      (strict = false ∧ s.m_decodingThread = Thread.finished))

/-! ## Statement-level views used by the ordering claims -/

/-- `play` reaches the statements that start a worker
(`m_shouldStop.store(false); ... m_decodingThread = std::thread(...)`): none
of its three early returns is taken. -/
def reachesThreadStart (s : MusicPlayer) : Bool :=
  decide (s.m_state ≠ State.PLAYING) && decide (s.m_currentFile ≠ "") &&
    decide (s.m_state ≠ State.PAUSED)

/-- One statement of the seek handling at the top of the loop body of
`decodingLoop`. -/
inductive SeekStmt where
  /-- `av_seek_frame(m_formatContext, -1, seekTarget, AVSEEK_FLAG_BACKWARD)` -/
  | seekFrame
  /-- `avcodec_flush_buffers(m_codecContext)` -/
  | flushBuffers
  /-- `SDL_ClearQueuedAudio(m_audioDevice)` -/
  | clearQueuedAudio
  /-- `m_currentTime.store(m_seekTime.load())` -/
  | storeCurrentTime
  /-- `m_seekRequested.store(false)` -/
  | storeSeekRequested
deriving DecidableEq, Repr

/-- The statements the seek handling executes, in program order: the body of
`if (m_seekRequested.load())`, or nothing. -/
def seekStmts (s : MusicPlayer) : List SeekStmt :=
  if s.m_seekRequested then
    [SeekStmt.seekFrame, SeekStmt.flushBuffers, SeekStmt.clearQueuedAudio,
     SeekStmt.storeCurrentTime, SeekStmt.storeSeekRequested]
  else []

/-- The effect of one statement of the seek handling on the object and on the
calls made so far. -/
def execSeekStmt (o : Outcome Unit) : SeekStmt → Outcome Unit
  | SeekStmt.seekFrame =>
    ⟨(), o.st, o.calls ++ [Call.seekFrame (truncQ (o.st.m_seekTime * (AV_TIME_BASE : ℚ)))]⟩
  | SeekStmt.flushBuffers => ⟨(), o.st, o.calls ++ [Call.flushBuffers]⟩
  | SeekStmt.clearQueuedAudio =>
    ⟨(), o.st, o.calls ++ [Call.clearQueuedAudio o.st.m_audioDevice]⟩
  | SeekStmt.storeCurrentTime => ⟨(), { o.st with m_currentTime := o.st.m_seekTime }, o.calls⟩
  | SeekStmt.storeSeekRequested => ⟨(), { o.st with m_seekRequested := false }, o.calls⟩

/-- A call of the seek handling: container seek, decoder flush or sink
flush. -/
def Call.isSeekCall : Call → Bool
  | Call.seekFrame _ => true
  | Call.flushBuffers => true
  | Call.clearQueuedAudio _ => true
  | _ => false

/-- A call that reads a packet or pushes audio. -/
def Call.isReadOrPush : Call → Bool
  | Call.readFrame => true
  | Call.queueAudio _ _ _ => true
  | _ => false

/-- One second of audio at the negotiated format: sample rate times channel
count times 2 bytes. -/
def oneSecondBytes (spec : AudioSpec) : Int := spec.freq * (spec.channels : Int) * 2

/-- The frames of the packet a worker step reads, if it reads one. -/
def framesOf (inp : WorkerInput) : List Frame :=
  match inp.read with
  | ReadResult.packet p => p.frames
  | _ => []

/-- A worker step that reads a packet of the audio stream without a
timestamp, which the decoder accepts and turns into frames without timestamps
of `n` samples each, every one of which yields converted samples. -/
def untimedInput (s : MusicPlayer) (n : Int) (inp : WorkerInput) : Prop :=
  inp.queuedBytes ≤ MAX_QUEUED_BYTES ∧
  ∃ p, inp.read = ReadResult.packet p ∧ p.stream_index = s.m_audioStreamIndex ∧
    p.sendOk = true ∧ p.pts = none ∧
    ∀ f ∈ p.frames, f.pts = none ∧ f.nb_samples = n ∧ (decodeAudioFrame s f).1 > 0

/-- The timestamps of a packet and of its frames, times the time base `tb`,
are not below `c`, and no frame has a negative sample count. -/
def stampsNotBelow (c tb : ℚ) (p : Packet) : Prop :=
  (∀ t, p.pts = some t → c ≤ (t : ℚ) * tb) ∧
  ∀ f ∈ p.frames, (∀ t, f.pts = some t → c ≤ (t : ℚ) * tb) ∧ 0 ≤ f.nb_samples

/-- The bytes `swr_convert` writes for `n` output samples per channel: the
output format is packed signed 16-bit, so 2 bytes for each channel of the
output layout the context was configured with. -/
def swrEmittedBytes (swr : SwrContext) (n : Int) : Int := n * swr.out_channels * 2

/-! ## Concrete library answers used in the examples -/

/-- A container with one audio stream (time base 1/44100, 3 seconds), a
decoder for it, and a device that opens with the requested format. -/
def envOk : LoadEnv where
  allocFormat := true
  openInput := true
  findStreamInfo := true
  streams := [⟨MediaType.audio, 1 / 44100⟩]
  findDecoder := true
  allocCodec := true
  parametersToContext := true
  codecpar := ⟨44100, 2⟩
  openCodec := true
  duration := some 3000000
  deviceNames := []
  openAudioDevice := fun _ wanted _ => (2, wanted)
  reinit := true
  swrAlloc := true
  swrSetOpts := true
  swrInit := true

/-- The same system when the file cannot be opened. -/
def envMissing : LoadEnv := { envOk with openInput := false }

/-- A mono file (44100 Hz, 1 channel) on a device that opens with the
requested format. -/
def envMono : LoadEnv := { envOk with codecpar := ⟨44100, 1⟩ }

/-- A frame of 1024 samples without a timestamp. -/
def frame1024 : Frame := ⟨none, 1024, 1024, true, 1024, [100, -100, 32767, -32768]⟩

/-- A packet of the audio stream stamped 2 seconds (88200 / 44100). -/
def packetAt2s : Packet := ⟨0, some 88200, true, [frame1024]⟩

/-- A packet of the audio stream without a timestamp, one frame. -/
def untimedPacket : Packet := ⟨0, none, true, [frame1024]⟩

/-- A packet of the audio stream stamped 1 second. -/
def packetAt1s : Packet := ⟨0, some 44100, true, [frame1024]⟩

/-- A packet of the audio stream stamped 4 seconds. -/
def packetAt4s : Packet := ⟨0, some 176400, true, [frame1024]⟩

/-- Load, play, and one packet stamped 2 s: the track is playing at 2 s. -/
def opsPlayingAt2s : List Op :=
  [Op.loadFile envOk "a.mp3", Op.play,
   Op.worker ⟨true, 0, ReadResult.eof⟩,
   Op.worker ⟨true, 0, ReadResult.packet packetAt2s⟩]

/-- The object after `loadFile("a.mp3")` succeeded on the constructed
object. -/
def loadedState : MusicPlayer := (loadFile envOk "a.mp3" MusicPlayer.init).st

/-- The object while the first track plays, the worker just started. -/
def playingState : MusicPlayer :=
  { loadedState with m_state := State.PLAYING, m_decodingThread := Thread.running Pc.entry }

/-- The object while the first track plays, the worker at the head of its
loop. -/
def decodingState : MusicPlayer :=
  { playingState with m_decodingThread := Thread.running Pc.loopHead }

/-- Load, play, one packet stamped 2 s, then end of stream with an empty
device queue: the worker stops by itself. -/
def opsEndOfStream : List Op :=
  [Op.loadFile envOk "a.mp3", Op.play,
   Op.worker ⟨true, 0, ReadResult.eof⟩,
   Op.worker ⟨true, 0, ReadResult.packet packetAt2s⟩,
   Op.worker ⟨true, 0, ReadResult.eof⟩,
   Op.worker ⟨true, 0, ReadResult.eof⟩]

/-- Load, play, and a worker whose `av_frame_alloc` fails. -/
def opsFrameAllocFails : List Op :=
  [Op.loadFile envOk "a.mp3", Op.play, Op.worker ⟨false, 0, ReadResult.eof⟩]

/-! ## Theorems -/

/-- What `setVolume` stores for a finite argument. -/
theorem setVolume_fin (s : MusicPlayer) (q : ℚ) :
    getVolume (setVolume (Fp.fin q) s)
      = Fp.fin (if q < 1 then (if 0 < q then q else 0) else 1) := by
  by_cases h1 : q < 1
  · by_cases h0 : 0 < q
    · simp [getVolume, setVolume, stdMax, stdMin, Fp.lt, h1, h0]
    · simp [getVolume, setVolume, stdMax, stdMin, Fp.lt, h1, h0]
  · simp [getVolume, setVolume, stdMax, stdMin, Fp.lt, h1]

/-- C1: after `setVolume(v)`, `getVolume()` is `clamp(v, 0, 1)`: 0 when
`v < 0`, 1 when `v > 1`, and `v` itself when `0 <= v <= 1`; whatever `v` is
(NaN and the infinities included) the stored value lies in `[0, 1]`. -/
theorem setVolume_getVolume_clamp (s : MusicPlayer) (v : Fp) :
    (Fp.lt v (Fp.fin 0) = true → getVolume (setVolume v s) = Fp.fin 0) ∧
    (Fp.lt (Fp.fin 1) v = true → getVolume (setVolume v s) = Fp.fin 1) ∧
    (Fp.le (Fp.fin 0) v = true → Fp.le v (Fp.fin 1) = true →
      getVolume (setVolume v s) = v) ∧
    Fp.le (Fp.fin 0) (getVolume (setVolume v s)) = true ∧
    Fp.le (getVolume (setVolume v s)) (Fp.fin 1) = true := by
  cases v with
  | nan => simp [getVolume, setVolume, stdMax, stdMin, Fp.lt, Fp.le]
  | negInf => simp [getVolume, setVolume, stdMax, stdMin, Fp.lt, Fp.le]
  | posInf => simp [getVolume, setVolume, stdMax, stdMin, Fp.lt, Fp.le]
  | fin q =>
    rw [setVolume_fin]
    simp only [Fp.lt, Fp.le, decide_eq_true_eq, Fp.fin.injEq]
    refine ⟨?_, ?_, ?_, ?_, ?_⟩
    · intro h
      have h1 : q < 1 := lt_trans h zero_lt_one
      simp [h1, not_lt.mpr h.le]
    · intro h
      simp [not_lt.mpr h.le]
    · intro h0 h1
      split_ifs with a b
      · rfl
      · exact le_antisymm h0 (not_lt.mp b)
      · exact le_antisymm (not_lt.mp a) h1
    · split_ifs with a b
      · exact b.le
      · exact le_refl _
      · exact zero_le_one
    · split_ifs with a b
      · exact a.le
      · exact zero_le_one
      · exact le_refl _

/-- C1 at `v = 1/2`: the value is stored unchanged. -/
theorem setVolume_getVolume_clamp_witness :
    getVolume (setVolume (Fp.fin (1/2)) MusicPlayer.init) = Fp.fin (1/2) :=
  (setVolume_getVolume_clamp MusicPlayer.init (Fp.fin (1/2))).2.2.1
    (by simp [Fp.le]) (by simp [Fp.le]; norm_num)

/-! ### stop and seek -/

/-- `stop` always returns true and leaves the state `STOPPED`. -/
theorem stop_ret_state (s : MusicPlayer) :
    (stop s).ret = true ∧ (stop s).st.m_state = State.STOPPED := by
  unfold stop
  by_cases h : s.m_state = State.STOPPED
  · simp [h]
  · by_cases hj : s.m_decodingThread.joinable = true <;> simp [h, hj]

/-- `stop` on a stopped player does nothing at all. -/
theorem stop_of_stopped (s : MusicPlayer) (h : s.m_state = State.STOPPED) :
    stop s = ⟨true, s, []⟩ := by
  simp [stop, h]

/-- C4: `stop()` is idempotent: the object after `stop(); stop()` is the object
after one `stop()` (every field, so playback state, clock, pending seek, volume
and track), both calls return true, and the second call issues no call at
all, so no `join()`. -/
theorem stop_idempotent (s : MusicPlayer) :
    (stop (stop s).st).st = (stop s).st ∧
    (stop s).ret = true ∧ (stop (stop s).st).ret = true ∧
    Call.threadJoin ∉ (stop (stop s).st).calls ∧
    (stop (stop s).st).calls = [] := by
  have h := stop_of_stopped (stop s).st (stop_ret_state s).2
  rw [h]
  exact ⟨rfl, (stop_ret_state s).1, rfl, by simp, rfl⟩

/-- C7: `seek(t)` returns false and changes nothing when no track is loaded
(`m_currentFile` empty); otherwise, whatever the playback state, it returns
true, records the request (`m_seekRequested`, `m_seekTime = t`) and leaves
every other field (playback state and clock among them) unchanged, issuing no
call. -/
theorem seek_spec (s : MusicPlayer) (t : ℚ) :
    (s.m_currentFile = "" → (seek t s).ret = false ∧ (seek t s).st = s) ∧
    (s.m_currentFile ≠ "" →
      (seek t s).ret = true ∧
      (seek t s).st.m_seekRequested = true ∧ (seek t s).st.m_seekTime = t ∧
      (seek t s).st.m_state = s.m_state ∧ (seek t s).st.m_currentTime = s.m_currentTime ∧
      (seek t s).st = { s with m_seekTime := t, m_seekRequested := true }) ∧
    (seek t s).calls = [] := by
  unfold seek
  by_cases h : s.m_currentFile = "" <;> simp [h]

/-- C7 on an object with a track and on the freshly constructed one. -/
theorem seek_spec_witness :
    ((seek 5 { MusicPlayer.init with m_currentFile := "a.mp3" }).ret = true ∧
      (seek 5 { MusicPlayer.init with m_currentFile := "a.mp3" }).st.m_seekTime = 5) ∧
    (seek 5 MusicPlayer.init).ret = false :=
  ⟨⟨((seek_spec { MusicPlayer.init with m_currentFile := "a.mp3" } 5).2.1 (by decide)).1,
    ((seek_spec { MusicPlayer.init with m_currentFile := "a.mp3" } 5).2.1 (by decide)).2.2.1⟩,
   ((seek_spec MusicPlayer.init 5).1 rfl).1⟩

/-- `stop` on an object that is not stopped: the clock is 0, the handle is not
joinable, the stop flag is set, the track is as before. -/
theorem stop_of_not_stopped (s : MusicPlayer) (h : s.m_state ≠ State.STOPPED) :
    (stop s).st.m_currentTime = 0 ∧ (stop s).st.m_decodingThread = Thread.notJoinable ∧
    (stop s).st.m_shouldStop = true ∧
    (stop s).st.m_currentFile = s.m_currentFile ∧ (stop s).st.m_duration = s.m_duration := by
  unfold stop
  cases hj : s.m_decodingThread <;> simp [h, hj, Thread.joinable]

/-- `stop` never touches the track. -/
theorem stop_track (s : MusicPlayer) :
    (stop s).st.m_currentFile = s.m_currentFile ∧ (stop s).st.m_duration = s.m_duration := by
  by_cases h : s.m_state = State.STOPPED
  · rw [stop_of_stopped s h]; exact ⟨rfl, rfl⟩
  · exact (stop_of_not_stopped s h).2.2.2

/-! ### What loading and the worker leave alone -/

/-- One flags loop of the device probing writes only `m_audioDevice` and
`m_audioSpec`. -/
theorem tryFlags_transport (env : LoadEnv) (name : Option String) (wanted : AudioSpec)
    (fl : List Nat) (s : MusicPlayer) :
    transport (tryFlags env name wanted fl s) = transport s
      ∧ (tryFlags env name wanted fl s).m_currentTime = s.m_currentTime := by
  induction fl generalizing s with
  | nil => simp [tryFlags]
  | cons f fs ih =>
    unfold tryFlags
    by_cases h : (env.openAudioDevice name wanted f).1 = 0
    · simp only [h, ne_eq, not_true_eq_false, if_false]
      rw [(ih _).1, (ih _).2]
      exact ⟨rfl, rfl⟩
    · simp [h, transport]

/-- The loop over the device names writes only `m_audioDevice` and
`m_audioSpec`. -/
theorem tryDevices_transport (env : LoadEnv) (wanted : AudioSpec)
    (names : List String) (s : MusicPlayer) :
    transport (tryDevices env wanted names s) = transport s
      ∧ (tryDevices env wanted names s).m_currentTime = s.m_currentTime := by
  induction names generalizing s with
  | nil => simp [tryDevices]
  | cons n ns ih =>
    unfold tryDevices
    have h1 := tryFlags_transport env (some n) wanted allowFlags s
    by_cases h : (tryFlags env (some n) wanted allowFlags s).m_audioDevice = 0
    · simp only [h, ne_eq, not_true_eq_false, if_false]
      rw [(ih _).1, (ih _).2]
      exact h1
    · simp only [h, ne_eq, not_false_eq_true, if_true]
      exact h1

/-- `setupAudioConversion` writes only the device, its format and the
resampler. -/
theorem setupAudioConversion_transport (env : LoadEnv) (cc : CodecContext) (s : MusicPlayer) :
    transport (setupAudioConversion env cc s).2 = transport s
      ∧ (setupAudioConversion env cc s).2.m_currentTime = s.m_currentTime := by
  have h1 := tryFlags_transport env none
    ⟨cc.sample_rate, (cc.nb_channels % 256).toNat, 8192⟩ allowFlags s
  have h2 := tryDevices_transport env
    ⟨cc.sample_rate, (cc.nb_channels % 256).toNat, 8192⟩ env.deviceNames
    (tryFlags env none ⟨cc.sample_rate, (cc.nb_channels % 256).toNat, 8192⟩ allowFlags s)
  simp only [transport, Prod.mk.injEq] at h1 h2 ⊢
  unfold setupAudioConversion
  simp only []
  split_ifs <;> simp_all

/-- The last two statements of `loadFile` on the result of
`setupAudioConversion`. -/
theorem loadFile_tail_transport (env : LoadEnv) (cc : CodecContext) (filename : String)
    (s6 : MusicPlayer) (p : Bool × MusicPlayer)
    (hp : p = (if (setupAudioConversion env cc s6).1 = false
      then (false, (setupAudioConversion env cc s6).2)
      else (true, { (setupAudioConversion env cc s6).2 with m_currentFile := filename }))) :
    p.2.m_state = s6.m_state ∧
    p.2.m_decodingThread = s6.m_decodingThread ∧
    p.2.m_shouldStop = s6.m_shouldStop ∧
    p.2.m_currentTime = s6.m_currentTime ∧
    p.2.m_currentFile = (if p.1 = true then filename else s6.m_currentFile) := by
  have h := setupAudioConversion_transport env cc s6
  simp only [transport, Prod.mk.injEq] at h
  obtain ⟨⟨h1, h2, h3, h4, -, -⟩, h5⟩ := h
  subst hp
  by_cases hr : (setupAudioConversion env cc s6).1 = false
  · simp [hr, h1, h2, h3, h4, h5]
  · simp [hr, h1, h2, h3, h4, h5]

/-- The part of `loadFile` after `stop(); cleanup();` writes none of the
transport fields but `m_currentFile`, and that one only when it returns
true. -/
theorem loadFileBody_transport (env : LoadEnv) (filename : String) (s0 : MusicPlayer) :
    (loadFileBody env filename s0).2.m_state = s0.m_state ∧
    (loadFileBody env filename s0).2.m_decodingThread = s0.m_decodingThread ∧
    (loadFileBody env filename s0).2.m_shouldStop = s0.m_shouldStop ∧
    (loadFileBody env filename s0).2.m_currentTime = s0.m_currentTime ∧
    (loadFileBody env filename s0).2.m_currentFile
      = (if (loadFileBody env filename s0).1 = true then filename else s0.m_currentFile) := by
  unfold loadFileBody
  simp only []
  by_cases h1 : env.allocFormat = false
  · simp [h1]
  rw [if_neg h1]
  by_cases h2 : env.openInput = false
  · simp [h2]
  rw [if_neg h2]
  by_cases h3 : env.findStreamInfo = false
  · simp [h3]
  rw [if_neg h3]
  by_cases h4 : findAudioStream env.streams 0 = -1
  · simp [h4]
  rw [if_neg h4]
  by_cases h5 : env.findDecoder = false
  · simp [h5]
  rw [if_neg h5]
  by_cases h6 : env.allocCodec = false
  · simp [h6]
  rw [if_neg h6]
  by_cases h7 : env.parametersToContext = false
  · simp [h7]
  rw [if_neg h7]
  by_cases h8 : env.openCodec = false
  · simp [h8]
  rw [if_neg h8]
  exact loadFile_tail_transport env env.codecpar filename
    { s0 with
      m_formatContext := true
      m_audioStreamIndex := findAudioStream env.streams 0
      m_audioStream := (env.streams.get? (findAudioStream env.streams 0).toNat).map
        (fun st => AVStream.mk st.time_base)
      m_codecContext := some env.codecpar
      m_duration :=
        match env.duration with
        | some d => (d : ℚ) / (AV_TIME_BASE : ℚ)
        | none => 0 } _ rfl

/-- `loadFile` leaves the object stopped, with the thread, stop flag and clock
that its initial `stop()` left; `m_currentFile` is the new name when it returns
true and the previous value when it returns false. -/
theorem loadFile_transport (env : LoadEnv) (filename : String) (s : MusicPlayer) :
    (loadFile env filename s).st.m_state = State.STOPPED ∧
    (loadFile env filename s).st.m_decodingThread = (stop s).st.m_decodingThread ∧
    (loadFile env filename s).st.m_shouldStop = (stop s).st.m_shouldStop ∧
    (loadFile env filename s).st.m_currentTime = (stop s).st.m_currentTime ∧
    (loadFile env filename s).st.m_currentFile
      = (if (loadFile env filename s).ret = true then filename else s.m_currentFile) := by
  have hb := loadFileBody_transport env filename (cleanup (stop s).st).st
  have hs := stop_ret_state s
  have ht := stop_track s
  simp only [loadFile]
  obtain ⟨b1, b2, b3, b4, b5⟩ := hb
  refine ⟨?_, ?_, ?_, ?_, ?_⟩
  · rw [b1]; simpa [cleanup] using hs.2
  · rw [b2]; simp [cleanup]
  · rw [b3]; simp [cleanup]
  · rw [b4]; simp [cleanup]
  · rw [b5]; simp [cleanup, ht.1]

/-- Processing one frame writes only the clock. -/
theorem processFrame_transport (p : Packet) (f : Frame) (s : MusicPlayer) :
    transport (processFrame p f s).st = transport s := by
  unfold processFrame
  simp only []
  split_ifs <;> rfl

/-- Processing the frames of a packet writes only the clock. -/
theorem receiveFrames_transport (p : Packet) (fs : List Frame) (s : MusicPlayer) :
    transport (receiveFrames p fs s).st = transport s := by
  induction fs generalizing s with
  | nil => rfl
  | cons f fs ih =>
    simp only [receiveFrames]
    rw [ih, processFrame_transport]

/-- Servicing a seek writes only the clock and the request flag. -/
theorem serviceSeek_fields (s : MusicPlayer) :
    (serviceSeek s).st.m_state = s.m_state ∧
    (serviceSeek s).st.m_decodingThread = s.m_decodingThread ∧
    (serviceSeek s).st.m_shouldStop = s.m_shouldStop ∧
    (serviceSeek s).st.m_currentFile = s.m_currentFile := by
  unfold serviceSeek
  split_ifs <;> simp

/-- One pass of the loop with the stop flag clear: the playback state, the
stop flag and the track are as before, and the worker is at the loop head
again or in the end-of-stream wait. -/
theorem loopBody_fields (inp : WorkerInput) (s : MusicPlayer) (h : s.m_shouldStop = false) :
    (loopBody inp s).st.m_state = s.m_state ∧
    (loopBody inp s).st.m_shouldStop = s.m_shouldStop ∧
    (loopBody inp s).st.m_currentFile = s.m_currentFile ∧
    ((loopBody inp s).st.m_decodingThread = s.m_decodingThread ∨
      (loopBody inp s).st.m_decodingThread = Thread.running Pc.draining) := by
  obtain ⟨k1, k2, k3', k4⟩ := serviceSeek_fields s
  have k3 : (serviceSeek s).st.m_shouldStop = false := k3'.trans h
  unfold loopBody
  simp only [h, Bool.false_eq_true, if_false]
  by_cases hq : inp.queuedBytes > MAX_QUEUED_BYTES
  · simp only [hq, if_true]
    exact ⟨k1, k3, k4, Or.inl k2⟩
  · simp only [hq, if_false]
    cases hr : inp.read with
    | eof => simp [k1, k3, k4, h]
    | error => simp [k1, k2, k3, k4, h]
    | packet p =>
      simp only []
      have hf := receiveFrames_transport p p.frames (serviceSeek s).st
      simp only [transport, Prod.mk.injEq] at hf
      obtain ⟨f1, f2, f3, f4, -, -⟩ := hf
      split_ifs
      · exact ⟨k1, k3, k4, Or.inl k2⟩
      · exact ⟨f1.trans k1, f3.trans k3, f4.trans k4, Or.inl (f2.trans k2)⟩
      · exact ⟨k1, k3, k4, Or.inl k2⟩

/-- With the stop flag set and the state `STOPPED` (what `stop()` stores
before it joins), the worker returns at its next step, wherever it is in the
loop, and writes nothing else; at thread entry it first allocates its frame. -/
theorem workerStep_stop_signalled (inp : WorkerInput) (s : MusicPlayer)
    (hflag : s.m_shouldStop = true) (hst : s.m_state = State.STOPPED) :
    (s.m_decodingThread = Thread.running Pc.loopHead ∨
      s.m_decodingThread = Thread.running Pc.draining →
      (workerStep inp s).st = { s with m_decodingThread := Thread.finished }) ∧
    (s.m_decodingThread = Thread.running Pc.entry →
      (workerStep inp (workerStep inp s).st).st
        = { s with m_decodingThread := Thread.finished }) := by
  constructor
  · rintro (h | h)
    · simp [workerStep, h, loopBody, hflag]
    · simp [workerStep, h, drainPoll, hflag, ← hst]
  · intro h
    by_cases ha : inp.frameAllocOk = true
    · simp [workerStep, h, ha, loopBody, hflag]
    · simp [workerStep, h, ha]

/-! ### The transport invariant -/

/-- A worker step keeps the invariant; in its strict form when the worker's
frame allocation succeeds. -/
theorem workerStep_inv (strict : Bool) (inp : WorkerInput) (s : MusicPlayer)
    (hinv : Inv strict s) (hok : strict = true → inp.frameAllocOk = true) :
    Inv strict (workerStep inp s).st := by
  unfold workerStep
  cases hth : s.m_decodingThread with
  | notJoinable => simpa using hinv
  | finished => simpa using hinv
  | running pc =>
    cases pc with
    | entry =>
      simp only []
      by_cases ha : inp.frameAllocOk = true
      · simp only [ha, if_true]
        intro hne
        obtain ⟨i1, i2, -⟩ := hinv hne
        exact ⟨i1, i2, Or.inl rfl⟩
      · simp only [ha, Bool.false_eq_true, if_false]
        intro hne
        obtain ⟨i1, i2, -⟩ := hinv hne
        refine ⟨i1, i2, Or.inr ⟨?_, rfl⟩⟩
        cases strict with
        | false => rfl
        | true => exact absurd (hok rfl) ha
    | loopHead =>
      simp only []
      intro hne
      by_cases hflag : s.m_shouldStop = false
      · obtain ⟨l1, l2, l3, l4⟩ := loopBody_fields inp s hflag
        rw [l1] at hne
        obtain ⟨i1, i2, -⟩ := hinv hne
        refine ⟨by rw [l3]; exact i1, by rw [l2]; exact i2, Or.inl ?_⟩
        rcases l4 with l4 | l4
        · rw [l4, hth]; rfl
        · rw [l4]; rfl
      · have hflag' : s.m_shouldStop = true := by simpa using hflag
        have hst : (loopBody inp s).st.m_state = s.m_state := by
          simp [loopBody, hflag']
        rw [hst] at hne
        exact absurd (hinv hne).2.1 hflag
    | draining =>
      simp only []
      unfold drainPoll
      by_cases hc : inp.queuedBytes > 0 ∧ s.m_shouldStop = false
      · rw [if_pos hc]
        intro hne
        obtain ⟨i1, i2, -⟩ := hinv hne
        exact ⟨i1, i2, Or.inl (by rw [hth]; rfl)⟩
      · rw [if_neg hc]
        intro hne
        exact absurd rfl hne

/-- `play` keeps the invariant whenever it returns. -/
theorem play_inv (strict : Bool) (s : MusicPlayer) (o : Outcome Bool)
    (hinv : Inv strict s) (h : play s = some o) : Inv strict o.st := by
  unfold play at h
  by_cases h1 : s.m_state = State.PLAYING
  · simp only [h1, if_true, Option.some.injEq] at h
    subst h
    exact hinv
  rw [if_neg h1] at h
  by_cases h2 : s.m_currentFile = ""
  · simp only [h2, if_true, Option.some.injEq] at h
    subst h
    exact hinv
  rw [if_neg h2] at h
  by_cases h3 : s.m_state = State.PAUSED
  · simp only [h3, if_true, Option.some.injEq] at h
    subst h
    intro _
    exact hinv (by rw [h3]; decide)
  rw [if_neg h3] at h
  simp only [] at h
  by_cases h4 : s.m_decodingThread.joinable = true
  · simp [h4] at h
  · simp only [h4, Bool.false_eq_true, if_false, Option.some.injEq] at h
    subst h
    intro _
    exact ⟨h2, rfl, Or.inl rfl⟩

/-- Every operation keeps the invariant; in its strict form when the worker's
frame allocation succeeds. -/
theorem applyOp_inv (strict : Bool) (op : Op) (s t : MusicPlayer)
    (hinv : Inv strict s) (hok : strict = true → opFrameAllocOk op = true)
    (h : applyOp op s = some t) : Inv strict t := by
  cases op with
  | loadFile env filename =>
    simp only [applyOp, Option.some.injEq] at h
    subst h
    intro hne
    exact absurd (loadFile_transport env filename s).1 hne
  | play =>
    simp only [applyOp, Option.map_eq_some'] at h
    obtain ⟨o, ho, rfl⟩ := h
    exact play_inv strict s o hinv ho
  | pause =>
    simp only [applyOp, Option.some.injEq] at h
    subst h
    unfold pause
    by_cases hp : s.m_state = State.PLAYING
    · rw [if_pos hp]
      intro _
      exact hinv (by rw [hp]; decide)
    · rw [if_neg hp]
      exact hinv
  | stop =>
    simp only [applyOp, Option.some.injEq] at h
    subst h
    intro hne
    exact absurd (stop_ret_state s).2 hne
  | seek seconds =>
    simp only [applyOp, Option.some.injEq] at h
    subst h
    unfold seek
    by_cases hp : s.m_currentFile = ""
    · rw [if_pos hp]
      exact hinv
    · rw [if_neg hp]
      exact hinv
  | setVolume v =>
    simp only [applyOp, Option.some.injEq] at h
    subst h
    exact hinv
  | worker inp =>
    simp only [applyOp, Option.some.injEq] at h
    subst h
    exact workerStep_inv strict inp s hinv hok

/-- A run keeps the invariant. -/
theorem run_inv (strict : Bool) (ops : List Op) (s t : MusicPlayer)
    (hinv : Inv strict s) (hok : strict = true → ∀ op ∈ ops, opFrameAllocOk op = true)
    (h : run ops s = some t) : Inv strict t := by
  induction ops generalizing s with
  | nil =>
    simp only [run, Option.some.injEq] at h
    subst h
    exact hinv
  | cons op ops ih =>
    simp only [run] at h
    cases hop : applyOp op s with
    | none => simp [hop] at h
    | some u =>
      simp only [hop] at h
      exact ih u
        (applyOp_inv strict op s u hinv (fun hs => hok hs op (List.mem_cons_self _ _)) hop)
        (fun hs op' hm => hok hs op' (List.mem_cons_of_mem _ hm)) h

/-- The constructed object satisfies the invariant. -/
theorem init_inv (strict : Bool) : Inv strict MusicPlayer.init :=
  fun hne => absurd rfl hne

/-- In every reachable state that is not `STOPPED`, a track is loaded, the
stop flag is clear and the worker thread handle is joinable. -/
theorem reachable_inv (s : MusicPlayer) (h : Reachable s) : Inv false s := by
  obtain ⟨ops, hops⟩ := h
  exact run_inv false ops MusicPlayer.init s (init_inv false) (fun hs => by cases hs) hops

/-- In every state reached by a run in which no frame allocation of the worker
fails, a state other than `STOPPED` has a live worker. -/
theorem worker_alive_unless_alloc_fails (ops : List Op) (s : MusicPlayer)
    (hok : ∀ op ∈ ops, opFrameAllocOk op = true)
    (h : run ops MusicPlayer.init = some s) (hne : s.m_state ≠ State.STOPPED) :
    s.m_decodingThread.alive = true := by
  have hi := run_inv true ops MusicPlayer.init s (init_inv true) (fun _ => hok) h hne
  rcases hi.2.2 with h1 | h1
  · exact h1
  · exact absurd h1.1 (by decide)

/-! ### pause and play -/

/-- C6: `pause()` returns true exactly when the state is `PLAYING`; then the
state becomes `PAUSED`, the stop flag and the worker thread are as before and
the only call is the device pause; from `STOPPED` or `PAUSED` it returns false
and the object is unchanged.  In a reachable `PLAYING` state the stop flag is
clear, and stays so: the worker is not told to stop and is not joined. -/
theorem pause_spec (s : MusicPlayer) :
    ((pause s).ret = true ↔ s.m_state = State.PLAYING) ∧
    (s.m_state = State.PLAYING →
      (pause s).st = { s with m_state := State.PAUSED } ∧
      (pause s).st.m_state = State.PAUSED ∧
      (pause s).st.m_shouldStop = s.m_shouldStop ∧
      (pause s).st.m_decodingThread = s.m_decodingThread ∧
      (pause s).calls = [Call.pauseAudioDevice s.m_audioDevice 1]) ∧
    (s.m_state ≠ State.PLAYING →
      (pause s).ret = false ∧ (pause s).st = s ∧ (pause s).calls = []) ∧
    (Reachable s → s.m_state = State.PLAYING →
      (pause s).st.m_shouldStop = false ∧ Call.threadJoin ∉ (pause s).calls) := by
  refine ⟨?_, ?_, ?_, ?_⟩
  · unfold pause
    by_cases h : s.m_state = State.PLAYING <;> simp [h]
  · intro h
    simp [pause, h]
  · intro h
    simp [pause, h]
  · intro hr h
    have hflag : s.m_shouldStop = false := (reachable_inv s hr (by rw [h]; decide)).2.1
    simp [pause, h, hflag]

/-- C6 on a playing object and on the freshly constructed (stopped) one. -/
theorem pause_spec_witness :
    ((pause { MusicPlayer.init with m_state := State.PLAYING }).st.m_state = State.PAUSED) ∧
    ((pause MusicPlayer.init).ret = false ∧ (pause MusicPlayer.init).st = MusicPlayer.init) :=
  ⟨((pause_spec { MusicPlayer.init with m_state := State.PLAYING }).2.1 rfl).2.1,
   ((pause_spec MusicPlayer.init).2.2.1 (by decide)).1,
   ((pause_spec MusicPlayer.init).2.2.1 (by decide)).2.1⟩

/-- What `play` does in a reachable state: it returns false exactly when
`m_currentFile` is empty and then changes nothing; in state `PLAYING` it is a
no-op returning true; whenever it returns true the state afterwards is
`PLAYING`; and it does not return at all (the program is terminated) exactly
when a track is loaded, the state is `STOPPED` and the thread handle is still
joinable. -/
theorem play_spec_when_returns (s : MusicPlayer) (hr : Reachable s) :
    (s.m_currentFile = "" → play s = some ⟨false, s, []⟩) ∧
    (∀ o, play s = some o → (o.ret = false ↔ s.m_currentFile = "")) ∧
    (s.m_state = State.PLAYING → play s = some ⟨true, s, []⟩) ∧
    (∀ o, play s = some o → o.ret = true → o.st.m_state = State.PLAYING) ∧
    (play s = none ↔
      s.m_currentFile ≠ "" ∧ s.m_state = State.STOPPED ∧
        s.m_decodingThread.joinable = true) := by
  have hinv := reachable_inv s hr
  have hempty : s.m_currentFile = "" → s.m_state = State.STOPPED := by
    intro he
    by_contra hne
    exact (hinv hne).1 he
  unfold play
  by_cases h1 : s.m_state = State.PLAYING
  · have hf : s.m_currentFile ≠ "" := fun he => by
      rw [hempty he] at h1
      exact absurd h1 (by decide)
    simp [h1, hf]
  · by_cases h2 : s.m_currentFile = ""
    · simp [h1, h2]
    · by_cases h3 : s.m_state = State.PAUSED
      · simp [h1, h2, h3]
      · have h4 : s.m_state = State.STOPPED := by
          cases hs : s.m_state <;> simp_all
        by_cases h5 : s.m_decodingThread.joinable = true
        · simp [h2, h4, h5]
        · simp [h2, h4, h5]

/-- `play` starts a thread only on a handle that is not joinable: no
operation starts a second worker while one is running or unjoined. -/
theorem play_starts_thread_only_when_not_joinable (s : MusicPlayer) (o : Outcome Bool)
    (h : play s = some o) (hc : Call.threadStart ∈ o.calls) :
    s.m_decodingThread = Thread.notJoinable := by
  unfold play at h
  by_cases h1 : s.m_state = State.PLAYING
  · simp only [h1, if_true, Option.some.injEq] at h
    subst h
    simp at hc
  rw [if_neg h1] at h
  by_cases h2 : s.m_currentFile = ""
  · simp only [h2, if_true, Option.some.injEq] at h
    subst h
    simp at hc
  rw [if_neg h2] at h
  by_cases h3 : s.m_state = State.PAUSED
  · simp only [h3, if_true, Option.some.injEq] at h
    subst h
    simp at hc
  rw [if_neg h3] at h
  cases hth : s.m_decodingThread with
  | notJoinable => rfl
  | running pc => simp [hth, Thread.joinable] at h
  | finished => simp [hth, Thread.joinable] at h

/-- C8: in a reachable state that is `PLAYING`, `pause()` followed by `play()`
gives back the very same object (so the state is `PLAYING` again and the
clock, the stop flag, the thread and the seek request are what they were
before `pause()`), both calls return true, and the only calls issued are the
device pause and the device resume: no thread is started and no seek is
issued. -/
theorem pause_play_resumes (s : MusicPlayer) (hr : Reachable s)
    (hp : s.m_state = State.PLAYING) :
    (pause s).ret = true ∧
    (pause s).calls = [Call.pauseAudioDevice s.m_audioDevice 1] ∧
    play (pause s).st = some ⟨true, s, [Call.pauseAudioDevice s.m_audioDevice 0]⟩ := by
  have hf : s.m_currentFile ≠ "" := (reachable_inv s hr (by rw [hp]; decide)).1
  have hs : ({ s with m_state := State.PLAYING } : MusicPlayer) = s := by
    cases s
    simp only [MusicPlayer.mk.injEq, true_and, and_true] at hp ⊢
    simp_all
  refine ⟨by simp [pause, hp], by simp [pause, hp], ?_⟩
  simp only [pause, hp, if_true, play]
  simp [hf, hs]

/-- C8 on the first track while it plays. -/
theorem pause_play_resumes_witness :
    Reachable playingState ∧ playingState.m_state = State.PLAYING ∧
    play (pause playingState).st
      = some ⟨true, playingState, [Call.pauseAudioDevice playingState.m_audioDevice 0]⟩ :=
  ⟨⟨[Op.loadFile envOk "a.mp3", Op.play], rfl⟩, rfl,
   (pause_play_resumes playingState ⟨[Op.loadFile envOk "a.mp3", Op.play], rfl⟩ rfl).2.2⟩

/-! ### End of stream -/

/-- A run of the worker on two sequences of answers, one after the other. -/
theorem runWorker_append (a b : List WorkerInput) (s : MusicPlayer) :
    runWorker (a ++ b) s = runWorker b (runWorker a s) := by
  induction a generalizing s with
  | nil => rfl
  | cons x xs ih =>
    rw [List.cons_append]
    simp only [runWorker]
    exact ih _

/-- The pass of the loop in which `av_read_frame` returns `AVERROR_EOF`: after
the seek handling the worker enters the wait loop; nothing else is written. -/
theorem loopBody_eof (inp : WorkerInput) (s : MusicPlayer) (hflag : s.m_shouldStop = false)
    (hq : inp.queuedBytes ≤ MAX_QUEUED_BYTES) (hread : inp.read = ReadResult.eof) :
    (loopBody inp s).st
      = { (serviceSeek s).st with m_decodingThread := Thread.running Pc.draining } := by
  unfold loopBody
  simp [hflag, not_lt.mpr hq, hread]

/-- While the device reports queued bytes and the stop flag is clear, the
polls of the wait loop leave the object as it is. -/
theorem drain_waits (polls : List WorkerInput) (u : MusicPlayer)
    (hth : u.m_decodingThread = Thread.running Pc.draining) (hflag : u.m_shouldStop = false)
    (hpolls : ∀ w ∈ polls, 0 < w.queuedBytes) : runWorker polls u = u := by
  induction polls with
  | nil => rfl
  | cons w ws ih =>
    have hw : 0 < w.queuedBytes := hpolls w (List.mem_cons_self _ _)
    have hstep : (workerStep w u).st = u := by
      simp [workerStep, hth, drainPoll, hw, hflag]
    simp only [runWorker, hstep]
    exact ih (fun w' hm => hpolls w' (List.mem_cons_of_mem _ hm))

/-- The poll that finds the device queue empty stores `STOPPED` and leaves
`decodingLoop`. -/
theorem drain_stops (last : WorkerInput) (u : MusicPlayer)
    (hth : u.m_decodingThread = Thread.running Pc.draining) (hlast : last.queuedBytes = 0) :
    (workerStep last u).st
      = { u with m_state := State.STOPPED, m_decodingThread := Thread.finished } := by
  simp [workerStep, hth, drainPoll, hlast]

/-- C9: a worker at the loop head, stop flag clear, whose `av_read_frame`
returns end of stream (`inp`), then polls the device queue.  As long as the
polls (`polls`) report a non-zero depth the playback state is the one it was,
`PLAYING` or `PAUSED` alike, and the worker stays in the wait loop; the first
poll that reports depth 0 (`last`) stores `STOPPED` and the thread function
returns.  The run consists of worker steps only: no `stop()` is involved. -/
theorem end_of_stream_drains_then_stops (s : MusicPlayer) (inp : WorkerInput)
    (polls : List WorkerInput) (last : WorkerInput)
    (hth : s.m_decodingThread = Thread.running Pc.loopHead) (hflag : s.m_shouldStop = false)
    (hq : inp.queuedBytes ≤ MAX_QUEUED_BYTES) (hread : inp.read = ReadResult.eof)
    (hpolls : ∀ w ∈ polls, 0 < w.queuedBytes) (hlast : last.queuedBytes = 0) :
    (∀ k, (runWorker (inp :: polls.take k) s).m_state = s.m_state ∧
      (runWorker (inp :: polls.take k) s).m_decodingThread = Thread.running Pc.draining) ∧
    (runWorker (inp :: (polls ++ [last])) s).m_state = State.STOPPED ∧
    (runWorker (inp :: (polls ++ [last])) s).m_decodingThread = Thread.finished ∧
    (∀ (u : MusicPlayer) (w : WorkerInput),
      u.m_decodingThread = Thread.running Pc.draining → u.m_shouldStop = false →
      (0 < w.queuedBytes → (workerStep w u).st = u) ∧
      (w.queuedBytes = 0 → (workerStep w u).st
        = { u with m_state := State.STOPPED, m_decodingThread := Thread.finished })) := by
  have h1 : (workerStep inp s).st
      = { (serviceSeek s).st with m_decodingThread := Thread.running Pc.draining } := by
    simp only [workerStep, hth]
    exact loopBody_eof inp s hflag hq hread
  obtain ⟨k1, -, k3, -⟩ := serviceSeek_fields s
  have hth1 : (workerStep inp s).st.m_decodingThread = Thread.running Pc.draining := by
    rw [h1]
  have hflag1 : (workerStep inp s).st.m_shouldStop = false := by
    rw [h1]; exact k3.trans hflag
  have hst1 : (workerStep inp s).st.m_state = s.m_state := by
    rw [h1]; exact k1
  refine ⟨fun k => ?_, ?_, ?_, ?_⟩
  · have hw := drain_waits (polls.take k) (workerStep inp s).st hth1 hflag1
      (fun w hm => hpolls w (List.mem_of_mem_take hm))
    simp only [runWorker, hw]
    exact ⟨hst1, hth1⟩
  · have hw := drain_waits polls (workerStep inp s).st hth1 hflag1 hpolls
    simp only [runWorker, runWorker_append, hw]
    rw [drain_stops last _ hth1 hlast]
  · have hw := drain_waits polls (workerStep inp s).st hth1 hflag1 hpolls
    simp only [runWorker, runWorker_append, hw]
    rw [drain_stops last _ hth1 hlast]
  · intro u w hu hf
    refine ⟨fun hpos => ?_, fun hz => drain_stops w u hu hz⟩
    have h := drain_waits [w] u hu hf (fun w' hm => by
      rw [List.mem_singleton] at hm
      rw [hm]
      exact hpos)
    simpa [runWorker] using h

/-- C9 on a playing worker that polls a queue of 4096 bytes once before the
queue is empty. -/
theorem end_of_stream_drains_then_stops_witness :
    (runWorker [⟨true, 0, ReadResult.eof⟩, ⟨true, 4096, ReadResult.eof⟩,
        ⟨true, 0, ReadResult.eof⟩]
      { playingState with m_decodingThread := Thread.running Pc.loopHead }).m_state
      = State.STOPPED :=
  (end_of_stream_drains_then_stops
    { playingState with m_decodingThread := Thread.running Pc.loopHead }
    ⟨true, 0, ReadResult.eof⟩ [⟨true, 4096, ReadResult.eof⟩] ⟨true, 0, ReadResult.eof⟩
    rfl rfl (by decide) rfl
    (fun w hw => by
      rw [List.mem_singleton] at hw
      subst hw
      decide)
    rfl).2.1

/-! ### Where the code departs from the specification -/

/-- A `loadFile` that returns false leaves `m_currentFile` as it was. -/
theorem loadFile_failure_currentFile (env : LoadEnv) (filename : String) (s : MusicPlayer)
    (h : (loadFile env filename s).ret = false) :
    getState (loadFile env filename s).st = State.STOPPED ∧
    getCurrentFile (loadFile env filename s).st = getCurrentFile s := by
  obtain ⟨h1, -, -, -, h5⟩ := loadFile_transport env filename s
  refine ⟨h1, ?_⟩
  simp only [getCurrentFile, h5, h]
  simp

/-- C2 (the code departs): `loadFile("a.mp3")` succeeds on the constructed
object; a following `loadFile` of a file that cannot be opened returns false
and leaves the state `STOPPED`, but `getCurrentFile()` is still `"a.mp3"`, and
`play()` and `seek()` return true. -/
theorem loadFile_failure_keeps_previous_track :
    run [Op.loadFile envOk "a.mp3"] MusicPlayer.init = some loadedState ∧
    (loadFile envOk "a.mp3" MusicPlayer.init).ret = true ∧
    (loadFile envMissing "missing.mp3" loadedState).ret = false ∧
    getState (loadFile envMissing "missing.mp3" loadedState).st = State.STOPPED ∧
    getCurrentFile (loadFile envMissing "missing.mp3" loadedState).st = "a.mp3" ∧
    (play (loadFile envMissing "missing.mp3" loadedState).st).map (fun o => o.ret)
      = some true ∧
    (seek 3 (loadFile envMissing "missing.mp3" loadedState).st).ret = true := by
  refine ⟨rfl, ?_, ?_, ?_, ?_, ?_, ?_⟩ <;> decide

set_option maxRecDepth 4000 in
/-- C3 (the code departs): after load, play, a packet stamped 2 s and an end
of stream with an empty device queue, the worker has stored `STOPPED` and
returned.  `stop()` then returns true at its first test: `getCurrentTime()` is
still 2, not 0, and the thread handle is still joinable (the returned worker
is never joined); the track is unchanged. -/
theorem stop_after_end_of_stream_keeps_clock :
    (run opsEndOfStream MusicPlayer.init).map
      (fun s => ((stop s).ret, getState (stop s).st, getCurrentTime (stop s).st,
        (stop s).st.m_decodingThread, (stop s).st.m_decodingThread.joinable,
        getCurrentFile (stop s).st))
    = some (true, State.STOPPED, 2, Thread.finished, true, "a.mp3") := by
  simp [run, applyOp, opsEndOfStream, loadFile, loadFileBody, stop, cleanup, envOk,
    MusicPlayer.init,
    setupAudioConversion, tryFlags, allowFlags, findAudioStream, play, Thread.joinable,
    workerStep, loopBody, serviceSeek, MAX_QUEUED_BYTES, drainPoll, receiveFrames, processFrame,
    decodeAudioFrame, av_samples_get_buffer_size, frameTime, timeBase, packetAt2s, frame1024,
    getState, getCurrentTime, getCurrentFile, AV_TIME_BASE]
  norm_num

/-- C5 (the code departs): in the state the worker leaves at end of stream a
track is loaded and the state is `STOPPED`, yet `play()` does not return
true: it assigns a new thread to the still joinable handle, which terminates
the program. -/
theorem play_after_end_of_stream_terminates :
    (run opsEndOfStream MusicPlayer.init).map
      (fun s => (getCurrentFile s, getState s, s.m_decodingThread.joinable, (play s).isSome))
    = some ("a.mp3", State.STOPPED, true, false) := by
  rfl

/-- C10 (the code departs): when the worker's `av_frame_alloc` fails,
`decodingLoop` returns at once and stores nothing: the state stays `PLAYING`
although no worker is alive. -/
theorem frame_alloc_failure_leaves_playing_without_worker :
    (run opsFrameAllocFails MusicPlayer.init).map
      (fun s => (getState s, s.m_decodingThread, s.m_decodingThread.alive))
    = some (State.PLAYING, Thread.finished, false) := by
  rfl

/-! ### Starting a worker -/

/-- When `play` reaches the statements that start a worker, it starts one if
the handle is not joinable and terminates the program if it is. -/
theorem play_at_thread_start (s : MusicPlayer) (h : reachesThreadStart s = true) :
    (s.m_decodingThread.joinable = true → play s = none) ∧
    (s.m_decodingThread.joinable = false →
      ∃ o, play s = some o ∧ Call.threadStart ∈ o.calls ∧
        o.st.m_decodingThread = Thread.running Pc.entry) := by
  simp only [reachesThreadStart, Bool.and_eq_true, decide_eq_true_eq] at h
  obtain ⟨⟨h1, h2⟩, h3⟩ := h
  constructor
  · intro hj
    simp [play, h1, h2, h3, hj]
  · intro hj
    simp [play, h1, h2, h3, hj]

/-- C17 (the code departs): in the state the worker leaves at end of stream,
`play()` reaches the statements that start a worker while the handle of the
returned worker is still joinable: that worker was never joined. -/
theorem play_starts_worker_on_joinable_handle :
    (run opsEndOfStream MusicPlayer.init).map
      (fun s => (reachesThreadStart s, s.m_decodingThread, s.m_decodingThread.joinable))
    = some (true, Thread.finished, true) := by
  rfl

/-! ### Seek handling -/

/-- Executing the statements of the seek handling one after the other is
`serviceSeek`. -/
theorem seekStmts_exec (s : MusicPlayer) :
    (seekStmts s).foldl execSeekStmt ⟨(), s, []⟩ = serviceSeek s := by
  unfold seekStmts serviceSeek
  by_cases h : s.m_seekRequested = true
  · simp [h, execSeekStmt]
  · simp [h]

/-- After the seek handling no request is pending, so handling it again does
nothing. -/
theorem serviceSeek_idem (s : MusicPlayer) :
    serviceSeek (serviceSeek s).st = ⟨(), (serviceSeek s).st, []⟩ := by
  unfold serviceSeek
  by_cases h : s.m_seekRequested = true
  · simp [h]
  · simp [h]

/-- The frames of a packet only push audio. -/
theorem receiveFrames_calls (p : Packet) (fs : List Frame) (s : MusicPlayer) :
    ∀ c ∈ (receiveFrames p fs s).calls, c.isSeekCall = false ∧ c ≠ Call.readFrame := by
  induction fs generalizing s with
  | nil => simp [receiveFrames]
  | cons f fs ih =>
    intro c hc
    simp only [receiveFrames, List.mem_append] at hc
    rcases hc with hc | hc
    · unfold processFrame at hc
      simp only [] at hc
      by_cases hd : (decodeAudioFrame s f).1 > 0
      · rw [if_pos hd] at hc
        simp only [List.mem_singleton] at hc
        subst hc
        exact ⟨rfl, by simp⟩
      · rw [if_neg hd] at hc
        simp at hc
    · exact ih _ c hc

/-- A pass of the loop that starts without a pending seek makes no call of the
seek handling and leaves no request pending. -/
theorem loopBody_no_seek (inp : WorkerInput) (s : MusicPlayer)
    (hseek : s.m_seekRequested = false) :
    (∀ c ∈ (loopBody inp s).calls, c.isSeekCall = false) ∧
    (loopBody inp s).st.m_seekRequested = false := by
  have hs : serviceSeek s = ⟨(), s, []⟩ := by simp [serviceSeek, hseek]
  unfold loopBody
  by_cases hflag : s.m_shouldStop = true
  · simp [hflag, hseek]
  simp only [hflag, Bool.false_eq_true, if_false, hs, List.nil_append]
  by_cases hq : inp.queuedBytes > MAX_QUEUED_BYTES
  · simp [hq, hseek, Call.isSeekCall]
  simp only [hq, if_false]
  cases hr : inp.read with
  | eof => simp [hseek, Call.isSeekCall]
  | error => simp [hseek, Call.isSeekCall]
  | packet p =>
    simp only []
    have hf := receiveFrames_transport p p.frames s
    simp only [transport, Prod.mk.injEq] at hf
    obtain ⟨-, -, -, -, f5, -⟩ := hf
    have hc := receiveFrames_calls p p.frames s
    split_ifs
    · simp [hseek, Call.isSeekCall]
    · refine ⟨?_, f5.trans hseek⟩
      intro c hmem
      simp only [List.mem_append, List.mem_cons, List.mem_singleton, List.not_mem_nil,
        or_false] at hmem
      rcases hmem with (rfl | rfl) | hmem
      · rfl
      · rfl
      · exact (hc c hmem).1
    · simp [hseek, Call.isSeekCall]

/-- A pass of the loop is its seek handling followed by a pass, on the object
the seek handling left, that has no seek to handle. -/
theorem loopBody_seek_decomp (inp : WorkerInput) (s : MusicPlayer)
    (hflag : s.m_shouldStop = false) :
    (loopBody inp s).st = (loopBody inp (serviceSeek s).st).st ∧
    (loopBody inp s).calls = (serviceSeek s).calls ++ (loopBody inp (serviceSeek s).st).calls := by
  have hflag2 : (serviceSeek s).st.m_shouldStop = false :=
    (serviceSeek_fields s).2.2.1.trans hflag
  have hidem := serviceSeek_idem s
  generalize hs2 : serviceSeek s = o at hflag2 hidem
  have e1 : loopBody inp s =
      (if inp.queuedBytes > MAX_QUEUED_BYTES then
        (⟨(), o.st, o.calls ++ [Call.sleepMs 10]⟩ : Outcome Unit)
      else
        match inp.read with
        | ReadResult.eof =>
          ⟨(), { o.st with m_decodingThread := Thread.running Pc.draining },
            o.calls ++ [Call.readFrame]⟩
        | ReadResult.error => ⟨(), o.st, o.calls ++ [Call.readFrame, Call.sleepMs 1]⟩
        | ReadResult.packet p =>
          if p.stream_index = o.st.m_audioStreamIndex then
            if p.sendOk = false then
              ⟨(), o.st, o.calls ++ [Call.readFrame, Call.sendPacket]⟩
            else
              ⟨(), (receiveFrames p p.frames o.st).st,
                o.calls ++ [Call.readFrame, Call.sendPacket]
                  ++ (receiveFrames p p.frames o.st).calls⟩
          else ⟨(), o.st, o.calls ++ [Call.readFrame]⟩) := by
    unfold loopBody
    simp only [hflag, Bool.false_eq_true, if_false, hs2]
  have e2 : loopBody inp o.st =
      (if inp.queuedBytes > MAX_QUEUED_BYTES then
        (⟨(), o.st, [Call.sleepMs 10]⟩ : Outcome Unit)
      else
        match inp.read with
        | ReadResult.eof =>
          ⟨(), { o.st with m_decodingThread := Thread.running Pc.draining },
            [Call.readFrame]⟩
        | ReadResult.error => ⟨(), o.st, [Call.readFrame, Call.sleepMs 1]⟩
        | ReadResult.packet p =>
          if p.stream_index = o.st.m_audioStreamIndex then
            if p.sendOk = false then
              ⟨(), o.st, [Call.readFrame, Call.sendPacket]⟩
            else
              ⟨(), (receiveFrames p p.frames o.st).st,
                [Call.readFrame, Call.sendPacket]
                  ++ (receiveFrames p p.frames o.st).calls⟩
          else ⟨(), o.st, [Call.readFrame]⟩) := by
    unfold loopBody
    simp only [hflag2, Bool.false_eq_true, if_false, hidem, List.nil_append]
  rw [e1, e2]
  by_cases hq : inp.queuedBytes > MAX_QUEUED_BYTES
  · simp [hq]
  · simp only [hq, if_false]
    cases inp.read with
    | eof => simp
    | error => simp
    | packet p =>
      simp only []
      split_ifs <;> simp

/-- C13: a pass of the loop that starts with a pending seek request for `t`
executes, in this order, the container seek (backward flag, target `t` in
microseconds), the decoder flush, the flush of the device queue, the store of
`t` to the clock and the store that clears the request; everything else the
pass does (reading a packet, pushing audio) is the pass of an object whose
clock is `t` and whose request is cleared, and its calls come after those
three.  A pass that starts without a pending request executes none of these
statements: no such call, and no request is pending afterwards. -/
theorem seek_serviced_first_in_order (inp : WorkerInput) (s : MusicPlayer)
    (hflag : s.m_shouldStop = false) :
    (s.m_seekRequested = true →
      seekStmts s = [SeekStmt.seekFrame, SeekStmt.flushBuffers, SeekStmt.clearQueuedAudio,
        SeekStmt.storeCurrentTime, SeekStmt.storeSeekRequested] ∧
      (seekStmts s).foldl execSeekStmt ⟨(), s, []⟩ = serviceSeek s ∧
      (serviceSeek s).calls =
        [Call.seekFrame (truncQ (s.m_seekTime * (AV_TIME_BASE : ℚ))), Call.flushBuffers,
         Call.clearQueuedAudio s.m_audioDevice] ∧
      (serviceSeek s).st = { s with m_currentTime := s.m_seekTime, m_seekRequested := false } ∧
      (loopBody inp s).st = (loopBody inp (serviceSeek s).st).st ∧
      (loopBody inp s).calls
        = (serviceSeek s).calls ++ (loopBody inp (serviceSeek s).st).calls ∧
      (∀ c ∈ (serviceSeek s).calls, c.isReadOrPush = false) ∧
      (∀ c ∈ (loopBody inp (serviceSeek s).st).calls, c.isSeekCall = false)) ∧
    (s.m_seekRequested = false →
      seekStmts s = [] ∧ serviceSeek s = ⟨(), s, []⟩ ∧
      (∀ c ∈ (loopBody inp s).calls, c.isSeekCall = false) ∧
      (loopBody inp s).st.m_seekRequested = false) := by
  constructor
  · intro hp
    have hd := loopBody_seek_decomp inp s hflag
    have hno : (serviceSeek s).st.m_seekRequested = false := by simp [serviceSeek, hp]
    refine ⟨by simp [seekStmts, hp], seekStmts_exec s, by simp [serviceSeek, hp],
      by simp [serviceSeek, hp], hd.1, hd.2, ?_, (loopBody_no_seek inp _ hno).1⟩
    intro c hc
    simp only [serviceSeek, hp, if_true, List.mem_cons, List.mem_singleton,
      List.not_mem_nil, or_false] at hc
    rcases hc with rfl | rfl | rfl <;> rfl
  · intro hp
    exact ⟨by simp [seekStmts, hp], by simp [serviceSeek, hp],
      (loopBody_no_seek inp s hp).1, (loopBody_no_seek inp s hp).2⟩

/-- C13 on the playing object after `seek(5)`: the three calls of the seek
handling come before the read of the pass, and the clock is 5. -/
theorem seek_serviced_first_in_order_witness :
    (loopBody ⟨true, 0, ReadResult.eof⟩ (seek 5 decodingState).st).calls
      = (serviceSeek (seek 5 decodingState).st).calls
        ++ (loopBody ⟨true, 0, ReadResult.eof⟩
             (serviceSeek (seek 5 decodingState).st).st).calls ∧
    (serviceSeek (seek 5 decodingState).st).st.m_currentTime = 5 :=
  ⟨((seek_serviced_first_in_order ⟨true, 0, ReadResult.eof⟩ (seek 5 decodingState).st
      rfl).1 rfl).2.2.2.2.2.1,
   by
    rw [((seek_serviced_first_in_order ⟨true, 0, ReadResult.eof⟩ (seek 5 decodingState).st
      rfl).1 rfl).2.2.2.1]
    rfl⟩

/-! ### Backpressure -/

set_option maxRecDepth 4000 in
/-- C14 (as stated, fails): the device negotiated 44100 Hz, 2 channels, so one
second of audio is 176400 bytes.  With 180000 bytes queued, more than one
second, the pass still reads a packet, pushes its frame and moves the clock
from 0 to 2: the threshold the code compares with is 192000. -/
theorem backpressure_threshold_is_not_one_second :
    run [Op.loadFile envOk "a.mp3", Op.play, Op.worker ⟨true, 0, ReadResult.eof⟩]
      MusicPlayer.init = some decodingState ∧
    decodingState.m_audioSpec = ⟨44100, 2, 8192⟩ ∧
    oneSecondBytes decodingState.m_audioSpec = 176400 ∧
    (180000 : Int) > oneSecondBytes decodingState.m_audioSpec ∧
    Call.readFrame ∈
      (workerStep ⟨true, 180000, ReadResult.packet packetAt2s⟩ decodingState).calls ∧
    (∃ c ∈ (workerStep ⟨true, 180000, ReadResult.packet packetAt2s⟩ decodingState).calls,
      c.isReadOrPush = true ∧ c ≠ Call.readFrame) ∧
    decodingState.m_currentTime = 0 ∧
    (workerStep ⟨true, 180000, ReadResult.packet packetAt2s⟩ decodingState).st.m_currentTime
      = 2 := by
  refine ⟨rfl, rfl, by decide, by decide, ?_, ?_, rfl, ?_⟩
  · simp [workerStep, decodingState, playingState, loopBody, MAX_QUEUED_BYTES, packetAt2s,
      loadedState, loadFile, loadFileBody, stop, cleanup, envOk, MusicPlayer.init,
      setupAudioConversion, tryFlags, allowFlags, findAudioStream, serviceSeek,
      receiveFrames, processFrame, decodeAudioFrame, av_samples_get_buffer_size, frame1024]
  · simp [workerStep, decodingState, playingState, loopBody, MAX_QUEUED_BYTES, packetAt2s,
      loadedState, loadFile, loadFileBody, stop, cleanup, envOk, MusicPlayer.init,
      setupAudioConversion, tryFlags, allowFlags, findAudioStream, serviceSeek,
      receiveFrames, processFrame, decodeAudioFrame, av_samples_get_buffer_size, frame1024,
      Call.isReadOrPush]
  · simp [workerStep, decodingState, playingState, loopBody, MAX_QUEUED_BYTES, packetAt2s,
      loadedState, loadFile, loadFileBody, stop, cleanup, envOk, MusicPlayer.init,
      setupAudioConversion, tryFlags, allowFlags, findAudioStream, serviceSeek,
      receiveFrames, processFrame, decodeAudioFrame, av_samples_get_buffer_size, frame1024,
      frameTime, timeBase]
    norm_num

/-- C14 (amended): the threshold is the constant 192000 bytes, whatever format
was negotiated.  A pass of the loop in which `SDL_GetQueuedAudioSize` exceeds
it does its seek handling and then sleeps: it reads no packet, pushes nothing
and leaves the playback state as it was, and with no seek pending the whole
object, the clock included.  A pass at or below 192000 bytes reads. -/
theorem backpressure_skips_iteration (inp : WorkerInput) (s : MusicPlayer)
    (hflag : s.m_shouldStop = false) :
    MAX_QUEUED_BYTES = 192000 ∧
    (inp.queuedBytes > 192000 →
      (loopBody inp s).st = (serviceSeek s).st ∧
      (loopBody inp s).calls = (serviceSeek s).calls ++ [Call.sleepMs 10] ∧
      (∀ c ∈ (loopBody inp s).calls, c.isReadOrPush = false) ∧
      (loopBody inp s).st.m_state = s.m_state ∧
      (s.m_seekRequested = false → (loopBody inp s).st = s)) ∧
    (inp.queuedBytes ≤ 192000 → Call.readFrame ∈ (loopBody inp s).calls) := by
  have hmax : MAX_QUEUED_BYTES = 192000 := by decide
  refine ⟨hmax, ?_, ?_⟩
  · intro hq
    have hq2 : inp.queuedBytes > MAX_QUEUED_BYTES := by rw [hmax]; exact hq
    have e : loopBody inp s = ⟨(), (serviceSeek s).st, (serviceSeek s).calls ++ [Call.sleepMs 10]⟩ := by
      unfold loopBody
      simp only [hflag, Bool.false_eq_true, if_false, hq2, if_true]
    rw [e]
    refine ⟨rfl, rfl, ?_, (serviceSeek_fields s).1, ?_⟩
    · intro c hc
      simp only [List.mem_append, List.mem_singleton] at hc
      rcases hc with hc | rfl
      · unfold serviceSeek at hc
        by_cases hp : s.m_seekRequested = true
        · simp only [hp, if_true, List.mem_cons, List.mem_singleton, List.not_mem_nil,
            or_false] at hc
          rcases hc with rfl | rfl | rfl <;> rfl
        · simp [hp] at hc
      · rfl
    · intro hp
      simp [serviceSeek, hp]
  · intro hq
    have hq2 : ¬ inp.queuedBytes > MAX_QUEUED_BYTES := by rw [hmax]; exact not_lt.mpr hq
    unfold loopBody
    simp only [hflag, Bool.false_eq_true, if_false, hq2]
    cases inp.read with
    | eof => simp
    | error => simp
    | packet p =>
      simp only []
      split_ifs <;> simp

/-- C14 (amended) on the playing object with 200000 bytes queued: nothing
changes. -/
theorem backpressure_skips_iteration_witness :
    (loopBody ⟨true, 200000, ReadResult.packet packetAt2s⟩ decodingState).st = decodingState :=
  ((backpressure_skips_iteration ⟨true, 200000, ReadResult.packet packetAt2s⟩ decodingState
    rfl).2.1 (by decide)).2.2.2.2 rfl

/-! ### The clock -/

/-- Whether a frame yields converted samples does not depend on the object. -/
theorem decodeAudioFrame_fst (s u : MusicPlayer) (f : Frame) :
    (decodeAudioFrame s f).1 = (decodeAudioFrame u f).1 := by
  unfold decodeAudioFrame
  split_ifs <;> rfl

/-- Processing one frame writes the clock and nothing else: the new value is
that of the timestamp update when the frame yields converted samples. -/
theorem processFrame_st (p : Packet) (f : Frame) (s : MusicPlayer) :
    (processFrame p f s).st =
      { s with m_currentTime :=
          if (decodeAudioFrame s f).1 > 0 then frameTime s p f else s.m_currentTime } := by
  unfold processFrame
  simp only []
  by_cases hd : (decodeAudioFrame s f).1 > 0
  · rw [if_pos hd, if_pos hd]
  · rw [if_neg hd, if_neg hd]

/-- Processing the frames of a packet writes the clock and nothing else. -/
theorem receiveFrames_st (p : Packet) (fs : List Frame) (s : MusicPlayer) :
    (receiveFrames p fs s).st
      = { s with m_currentTime := (receiveFrames p fs s).st.m_currentTime } := by
  induction fs generalizing s with
  | nil => rfl
  | cons f fs ih =>
    simp only [receiveFrames]
    rw [ih, processFrame_st]

/-- The frames of one packet, all without timestamps and of `n` samples, advance
the clock by `n / sample_rate` each. -/
theorem receiveFrames_untimed (p : Packet) (n : Int) (fs : List Frame) (s : MusicPlayer)
    (hp : p.pts = none)
    (hfs : ∀ f ∈ fs, f.pts = none ∧ f.nb_samples = n ∧ (decodeAudioFrame s f).1 > 0) :
    (receiveFrames p fs s).st.m_currentTime
      = s.m_currentTime + (fs.length : ℚ) * ((n : ℚ) / (sampleRate s : ℚ)) := by
  induction fs generalizing s with
  | nil => simp [receiveFrames]
  | cons f fs ih =>
    obtain ⟨h1, h2, h3⟩ := hfs f (List.mem_cons_self _ _)
    simp only [receiveFrames]
    have hst := processFrame_st p f s
    rw [if_pos h3] at hst
    have hrate : sampleRate (processFrame p f s).st = sampleRate s := by
      rw [hst]; rfl
    have ih2 := ih (processFrame p f s).st (fun g hg => by
      obtain ⟨g1, g2, g3⟩ := hfs g (List.mem_cons_of_mem _ hg)
      exact ⟨g1, g2, by rw [← decodeAudioFrame_fst s]; exact g3⟩)
    rw [ih2, hrate, hst]
    simp only [frameTime, hp, h1, h2, List.length_cons, Nat.cast_add, Nat.cast_one]
    ring

/-- A worker step on an untimed packet is the processing of its frames. -/
theorem workerStep_untimed (inp : WorkerInput) (n : Int) (s : MusicPlayer)
    (hth : s.m_decodingThread = Thread.running Pc.loopHead) (hflag : s.m_shouldStop = false)
    (hseek : s.m_seekRequested = false) (hin : untimedInput s n inp) :
    (workerStep inp s).st =
      { s with m_currentTime :=
          s.m_currentTime + ((framesOf inp).length : ℚ) * ((n : ℚ) / (sampleRate s : ℚ)) } := by
  obtain ⟨hq, p, hr, hidx, hsend, hpts, hfs⟩ := hin
  have hs : serviceSeek s = ⟨(), s, []⟩ := by simp [serviceSeek, hseek]
  have e : (workerStep inp s).st = (receiveFrames p p.frames s).st := by
    simp only [workerStep, hth]
    unfold loopBody
    simp only [hflag, Bool.false_eq_true, if_false, not_lt.mpr hq, hs, hr, hidx, if_true, hsend]
    simp
  rw [e, receiveFrames_st, receiveFrames_untimed p n p.frames s hpts hfs]
  simp only [framesOf, hr]

/-- Untimed packets, one worker step each, advance the clock by
`n / sample_rate` for every frame. -/
theorem runWorker_untimed (n : Int) (inps : List WorkerInput) (s : MusicPlayer)
    (hth : s.m_decodingThread = Thread.running Pc.loopHead) (hflag : s.m_shouldStop = false)
    (hseek : s.m_seekRequested = false) (hin : ∀ inp ∈ inps, untimedInput s n inp) :
    (runWorker inps s).m_currentTime
      = s.m_currentTime
        + (((inps.map (fun i => (framesOf i).length)).sum : Nat) : ℚ)
          * ((n : ℚ) / (sampleRate s : ℚ)) := by
  induction inps generalizing s with
  | nil => simp [runWorker]
  | cons inp rest ih =>
    have h1 := workerStep_untimed inp n s hth hflag hseek (hin inp (List.mem_cons_self _ _))
    simp only [runWorker]
    rw [h1]
    have ih2 := ih
      { s with m_currentTime :=
          s.m_currentTime + ((framesOf inp).length : ℚ) * ((n : ℚ) / (sampleRate s : ℚ)) }
      hth hflag hseek
      (fun i hi => by
        obtain ⟨hq, p, hr, hidx, hsend, hpts, hfs⟩ := hin i (List.mem_cons_of_mem _ hi)
        exact ⟨hq, p, hr, hidx, hsend, hpts, fun f hf =>
          ⟨(hfs f hf).1, (hfs f hf).2.1, by
            rw [← decodeAudioFrame_fst s]; exact (hfs f hf).2.2⟩⟩)
    rw [ih2]
    have hrate : sampleRate
        { s with m_currentTime :=
            s.m_currentTime + ((framesOf inp).length : ℚ) * ((n : ℚ) / (sampleRate s : ℚ)) }
        = sampleRate s := rfl
    rw [hrate]
    simp only [List.map_cons, List.sum_cons, Nat.cast_add]
    ring

/-- C16: for a frame that yields converted samples, the clock stored is the
packet's pts times the stream time base when the packet pts is known;
otherwise the frame's pts times the time base when that is known; otherwise
the previous clock plus `nb_samples / sample_rate`.  Hence untimed frames of
`n` samples each, `k` of them in all over any number of packets, advance the
clock by `k * n / sample_rate`.  (The `double` clock is a rational here: the
arithmetic is exact.) -/
theorem clock_update_policy (s : MusicPlayer) :
    (∀ (p : Packet) (f : Frame), (decodeAudioFrame s f).1 > 0 →
      (processFrame p f s).st.m_currentTime = frameTime s p f ∧
      (∀ t, p.pts = some t → frameTime s p f = (t : ℚ) * timeBase s) ∧
      (p.pts = none → ∀ t, f.pts = some t → frameTime s p f = (t : ℚ) * timeBase s) ∧
      (p.pts = none → f.pts = none →
        frameTime s p f = s.m_currentTime + (f.nb_samples : ℚ) / (sampleRate s : ℚ))) ∧
    (∀ (n : Int) (inps : List WorkerInput),
      s.m_decodingThread = Thread.running Pc.loopHead → s.m_shouldStop = false →
      s.m_seekRequested = false → 0 < sampleRate s →
      (∀ inp ∈ inps, untimedInput s n inp) →
      (runWorker inps s).m_currentTime
        = s.m_currentTime
          + (((inps.map (fun i => (framesOf i).length)).sum : Nat) : ℚ) * (n : ℚ)
            / (sampleRate s : ℚ)) := by
  constructor
  · intro p f hy
    refine ⟨?_, ?_, ?_, ?_⟩
    · rw [processFrame_st, if_pos hy]
    · intro t ht
      simp [frameTime, ht]
    · intro hp t ht
      simp [frameTime, hp, ht]
    · intro hp hf
      simp [frameTime, hp, hf]
  · intro n inps hth hflag hseek _ hin
    rw [runWorker_untimed n inps s hth hflag hseek hin]
    ring

/-- C16 on the playing object and two untimed packets of one 1024-sample
frame each. -/
theorem clock_update_policy_witness :
    (runWorker [⟨true, 0, ReadResult.packet untimedPacket⟩,
        ⟨true, 0, ReadResult.packet untimedPacket⟩] decodingState).m_currentTime
      = decodingState.m_currentTime
        + ((([⟨true, 0, ReadResult.packet untimedPacket⟩,
              ⟨true, 0, ReadResult.packet untimedPacket⟩].map
            (fun i : WorkerInput => (framesOf i).length)).sum : Nat) : ℚ) * ((1024 : Int) : ℚ)
          / (sampleRate decodingState : ℚ) :=
  (clock_update_policy decodingState).2 1024
    [⟨true, 0, ReadResult.packet untimedPacket⟩, ⟨true, 0, ReadResult.packet untimedPacket⟩]
    rfl rfl rfl (by decide)
    (fun inp hinp => by
      have h : inp = ⟨true, 0, ReadResult.packet untimedPacket⟩ := by
        simpa using hinp
      subst h
      refine ⟨by decide, untimedPacket, rfl, rfl, rfl, rfl, fun f hf => ?_⟩
      have hf2 : f = frame1024 := by simpa [untimedPacket] using hf
      subst hf2
      exact ⟨rfl, rfl, by decide⟩)

/-- The frames of a packet keep the clock at or above a bound that the clock
and all the timestamps respect. -/
theorem receiveFrames_not_below (c : ℚ) (p : Packet) (fs : List Frame) (s : MusicPlayer)
    (hrate : 0 < sampleRate s) (hc : c ≤ s.m_currentTime)
    (hp : ∀ t, p.pts = some t → c ≤ (t : ℚ) * timeBase s)
    (hfs : ∀ f ∈ fs, (∀ t, f.pts = some t → c ≤ (t : ℚ) * timeBase s) ∧ 0 ≤ f.nb_samples) :
    c ≤ (receiveFrames p fs s).st.m_currentTime := by
  induction fs generalizing s with
  | nil => simpa [receiveFrames] using hc
  | cons f fs ih =>
    simp only [receiveFrames]
    have hst := processFrame_st p f s
    have hrate2 : sampleRate (processFrame p f s).st = sampleRate s := by rw [hst]; rfl
    have htb2 : timeBase (processFrame p f s).st = timeBase s := by rw [hst]; rfl
    obtain ⟨hf1, hf2⟩ := hfs f (List.mem_cons_self _ _)
    apply ih
    · rw [hrate2]; exact hrate
    · rw [hst]
      simp only []
      by_cases hy : (decodeAudioFrame s f).1 > 0
      · rw [if_pos hy]
        unfold frameTime
        cases hpp : p.pts with
        | some t => exact hp t hpp
        | none =>
          cases hfp : f.pts with
          | some t => exact hf1 t hfp
          | none =>
            have hd : (0 : ℚ) ≤ (f.nb_samples : ℚ) / (sampleRate s : ℚ) :=
              div_nonneg (by exact_mod_cast hf2) (by exact_mod_cast hrate.le)
            simp only []
            linarith
      · rw [if_neg hy]; exact hc
    · rw [htb2]; exact hp
    · rw [htb2]
      exact fun g hg => hfs g (List.mem_cons_of_mem _ hg)

/-- The clock after a pass of the loop that has no seek to handle: unchanged,
or what the frames of the packet read left. -/
theorem loopBody_clock (inp : WorkerInput) (s : MusicPlayer)
    (hflag : s.m_shouldStop = false) (hseek : s.m_seekRequested = false) :
    (loopBody inp s).st.m_currentTime = s.m_currentTime ∨
    ∃ p, inp.read = ReadResult.packet p ∧
      (loopBody inp s).st.m_currentTime = (receiveFrames p p.frames s).st.m_currentTime := by
  have hs : serviceSeek s = ⟨(), s, []⟩ := by simp [serviceSeek, hseek]
  unfold loopBody
  simp only [hflag, Bool.false_eq_true, if_false, hs]
  by_cases hq : inp.queuedBytes > MAX_QUEUED_BYTES
  · simp [hq]
  simp only [hq, if_false]
  cases hr : inp.read with
  | eof => simp
  | error => simp
  | packet p =>
    simp only []
    by_cases h1 : p.stream_index = s.m_audioStreamIndex
    · by_cases h2 : p.sendOk = false
      · simp [h1, h2]
      · right
        exact ⟨p, rfl, by simp [h1, h2]⟩
    · simp [h1]

/-- C11 (amended): across a pass of the worker loop the clock does not
decrease, provided every timestamp the pass uses (packet pts, frame pts, times
the stream time base) is not below the clock the pass starts from, no frame
has a negative sample count and the sample rate is positive.  A pass that
services a seek starts from the seek target: the clock is set to it, stays
there when the pass decodes no frame, and otherwise ends where the frames'
timestamps put it, not below the target under the same proviso. -/
theorem clock_not_below_when_stamps_not_below (inp : WorkerInput) (s : MusicPlayer)
    (hflag : s.m_shouldStop = false) (hrate : 0 < sampleRate s)
    (hord : ∀ p, inp.read = ReadResult.packet p →
      stampsNotBelow (serviceSeek s).st.m_currentTime (timeBase s) p) :
    (s.m_seekRequested = false → s.m_currentTime ≤ (loopBody inp s).st.m_currentTime) ∧
    (s.m_seekRequested = true →
      (serviceSeek s).st.m_currentTime = s.m_seekTime ∧
      s.m_seekTime ≤ (loopBody inp s).st.m_currentTime ∧
      (framesOf inp = [] → (loopBody inp s).st.m_currentTime = s.m_seekTime)) := by
  have hd := (loopBody_seek_decomp inp s hflag).1
  have hflag2 : (serviceSeek s).st.m_shouldStop = false :=
    (serviceSeek_fields s).2.2.1.trans hflag
  have hseek2 : (serviceSeek s).st.m_seekRequested = false := by
    unfold serviceSeek
    by_cases h : s.m_seekRequested = true
    · simp [h]
    · simp [h]
  have hrate2 : sampleRate (serviceSeek s).st = sampleRate s := by
    unfold serviceSeek
    by_cases h : s.m_seekRequested = true
    · simp [h, sampleRate]
    · simp [h]
  have htb2 : timeBase (serviceSeek s).st = timeBase s := by
    unfold serviceSeek
    by_cases h : s.m_seekRequested = true
    · simp [h, timeBase]
    · simp [h]
  have hcl := loopBody_clock inp (serviceSeek s).st hflag2 hseek2
  have key : (serviceSeek s).st.m_currentTime ≤ (loopBody inp s).st.m_currentTime := by
    rw [hd]
    rcases hcl with h | ⟨p, hr, h⟩
    · rw [h]
    · rw [h]
      obtain ⟨o1, o2⟩ := hord p hr
      exact receiveFrames_not_below _ p p.frames (serviceSeek s).st
        (by rw [hrate2]; exact hrate) (le_refl _) (by rw [htb2]; exact o1)
        (by rw [htb2]; exact o2)
  have hempty : framesOf inp = [] →
      (loopBody inp s).st.m_currentTime = (serviceSeek s).st.m_currentTime := by
    intro he
    rw [hd]
    rcases hcl with h | ⟨p, hr, h⟩
    · exact h
    · rw [h]
      have hp : p.frames = [] := by simpa [framesOf, hr] using he
      rw [hp]
      rfl
  constructor
  · intro hp
    have e : (serviceSeek s).st.m_currentTime = s.m_currentTime := by simp [serviceSeek, hp]
    rw [e] at key
    exact key
  · intro hp
    have e : (serviceSeek s).st.m_currentTime = s.m_seekTime := by simp [serviceSeek, hp]
    rw [e] at key hempty
    exact ⟨e, key, hempty⟩

/-- C11 (amended) on the playing object at clock 0 and a packet stamped 2 s. -/
theorem clock_not_below_when_stamps_not_below_witness :
    decodingState.m_currentTime
      ≤ (loopBody ⟨true, 0, ReadResult.packet packetAt2s⟩ decodingState).st.m_currentTime :=
  (clock_not_below_when_stamps_not_below ⟨true, 0, ReadResult.packet packetAt2s⟩ decodingState
    rfl (by decide)
    (fun p hp => by
      have h : p = packetAt2s := by
        simp only [ReadResult.packet.injEq] at hp
        exact hp.symm
      subst h
      have hc : (serviceSeek decodingState).st.m_currentTime = 0 := rfl
      have htb : timeBase decodingState = 1 / 44100 := rfl
      rw [hc, htb]
      refine ⟨fun t ht => ?_, fun f hf => ?_⟩
      · have h2 : t = 88200 := by
          simp only [packetAt2s, Option.some.injEq] at ht
          exact ht.symm
        subst h2
        norm_num
      · have hf2 : f = frame1024 := by simpa [packetAt2s] using hf
        subst hf2
        exact ⟨fun t ht => by simp [frame1024] at ht, by decide⟩)).1 rfl

set_option maxRecDepth 4000 in
/-- C11 (as stated, fails): the track is playing with the clock at 2 s and no
seek pending; a packet stamped 1 s puts the clock at 1 s.  And after
`seek(5)` the next pass sets the clock to 5, and the first frame decoded, from
the packet stamped 4 s that a backward seek delivers, puts it at 4 s, below
the value the seek stored. -/
theorem clock_moves_back_with_timestamps :
    (run opsPlayingAt2s MusicPlayer.init).map
      (fun s => (s.m_state, s.m_seekRequested, s.m_currentTime,
        (workerStep ⟨true, 0, ReadResult.packet packetAt1s⟩ s).st.m_state,
        (workerStep ⟨true, 0, ReadResult.packet packetAt1s⟩ s).st.m_currentTime,
        (serviceSeek (seek 5 s).st).st.m_currentTime,
        (workerStep ⟨true, 0, ReadResult.packet packetAt4s⟩ (seek 5 s).st).st.m_currentTime))
    = some (State.PLAYING, false, 2, State.PLAYING, 1, 5, 4) := by
  simp [run, applyOp, opsPlayingAt2s, loadFile, loadFileBody, stop, cleanup, envOk,
    MusicPlayer.init, setupAudioConversion, tryFlags, allowFlags, findAudioStream, play,
    Thread.joinable, workerStep, loopBody, serviceSeek, MAX_QUEUED_BYTES, receiveFrames,
    processFrame, decodeAudioFrame, av_samples_get_buffer_size, frameTime, timeBase,
    packetAt2s, packetAt1s, packetAt4s, frame1024, seek, AV_TIME_BASE]
  norm_num

/-! ### The resampler -/

/-- When `setupAudioConversion` succeeds, the resampler's output rate is the
negotiated `m_audioSpec.freq` and its output layout is stereo, whatever
channel count was negotiated. -/
theorem setupAudioConversion_swr (env : LoadEnv) (cc : CodecContext) (s : MusicPlayer)
    (h : (setupAudioConversion env cc s).1 = true) :
    (setupAudioConversion env cc s).2.m_swrContext
      = some ⟨2, (setupAudioConversion env cc s).2.m_audioSpec.freq, cc.nb_channels,
          cc.sample_rate⟩ := by
  have key : ∀ (s3 : MusicPlayer) (r : Bool × MusicPlayer),
      r = (if s3.m_audioDevice = 0 then (false, s3)
        else if env.swrAlloc = false then (false, { s3 with m_swrContext := none })
        else if env.swrSetOpts = false then (false, { s3 with m_swrContext := none })
        else
          if env.swrInit = false then
            (false, { s3 with
              m_swrContext := some ⟨2, s3.m_audioSpec.freq, cc.nb_channels, cc.sample_rate⟩ })
          else
            (true, { s3 with
              m_swrContext := some ⟨2, s3.m_audioSpec.freq, cc.nb_channels, cc.sample_rate⟩ })) →
      r.1 = true →
      r.2.m_swrContext = some ⟨2, r.2.m_audioSpec.freq, cc.nb_channels, cc.sample_rate⟩ := by
    intro s3 r hr h1
    subst hr
    by_cases a1 : s3.m_audioDevice = 0
    · simp [a1] at h1
    rw [if_neg a1] at h1 ⊢
    by_cases a2 : env.swrAlloc = false
    · simp [a2] at h1
    rw [if_neg a2] at h1 ⊢
    by_cases a3 : env.swrSetOpts = false
    · simp [a3] at h1
    rw [if_neg a3] at h1 ⊢
    by_cases a4 : env.swrInit = false
    · simp [a4] at h1
    rw [if_neg a4]
  exact key
    (let wanted : AudioSpec := ⟨cc.sample_rate, (cc.nb_channels % 256).toNat, 8192⟩
     let s1 := tryFlags env none wanted allowFlags s
     let s2 := if s1.m_audioDevice = 0 then tryDevices env wanted env.deviceNames s1 else s1
     if s2.m_audioDevice = 0 then
       if env.reinit then
         let r := env.openAudioDevice none wanted SDL_AUDIO_ALLOW_ANY_CHANGE
         if r.1 ≠ 0 then { s2 with m_audioDevice := r.1, m_audioSpec := r.2 }
         else { s2 with m_audioDevice := 0 }
       else s2
     else s2)
    (setupAudioConversion env cc s) rfl h

/-- After a `loadFile` that returns true the resampler's output rate is the
negotiated rate and its output layout has 2 channels, whatever channel count
the device negotiated. -/
theorem loadFile_swr (env : LoadEnv) (filename : String) (s : MusicPlayer)
    (h : (loadFile env filename s).ret = true) :
    (loadFile env filename s).st.m_swrContext
      = some ⟨2, (loadFile env filename s).st.m_audioSpec.freq, env.codecpar.nb_channels,
          env.codecpar.sample_rate⟩ := by
  have tail : ∀ (s6 : MusicPlayer) (p : Bool × MusicPlayer),
      p = (if (setupAudioConversion env env.codecpar s6).1 = false
        then (false, (setupAudioConversion env env.codecpar s6).2)
        else (true, { (setupAudioConversion env env.codecpar s6).2 with
          m_currentFile := filename })) →
      p.1 = true →
      p.2.m_swrContext = some ⟨2, p.2.m_audioSpec.freq, env.codecpar.nb_channels,
        env.codecpar.sample_rate⟩ := by
    intro s6 p hp h1
    subst hp
    by_cases hr : (setupAudioConversion env env.codecpar s6).1 = false
    · simp [hr] at h1
    · rw [if_neg hr]
      have hr2 : (setupAudioConversion env env.codecpar s6).1 = true := by simpa using hr
      exact setupAudioConversion_swr env env.codecpar s6 hr2
  simp only [loadFile] at h ⊢
  generalize (cleanup (stop s).st).st = s0 at h ⊢
  unfold loadFileBody at h ⊢
  simp only [] at h ⊢
  by_cases h1 : env.allocFormat = false
  · simp [h1] at h
  rw [if_neg h1] at h ⊢
  by_cases h2 : env.openInput = false
  · simp [h2] at h
  rw [if_neg h2] at h ⊢
  by_cases h3 : env.findStreamInfo = false
  · simp [h3] at h
  rw [if_neg h3] at h ⊢
  by_cases h4 : findAudioStream env.streams 0 = -1
  · simp [h4] at h
  rw [if_neg h4] at h ⊢
  by_cases h5 : env.findDecoder = false
  · simp [h5] at h
  rw [if_neg h5] at h ⊢
  by_cases h6 : env.allocCodec = false
  · simp [h6] at h
  rw [if_neg h6] at h ⊢
  by_cases h7 : env.parametersToContext = false
  · simp [h7] at h
  rw [if_neg h7] at h ⊢
  by_cases h8 : env.openCodec = false
  · simp [h8] at h
  rw [if_neg h8] at h ⊢
  exact tail
    { s0 with
      m_formatContext := true
      m_audioStreamIndex := findAudioStream env.streams 0
      m_audioStream := (env.streams.get? (findAudioStream env.streams 0).toNat).map
        (fun st => AVStream.mk st.time_base)
      m_codecContext := some env.codecpar
      m_duration :=
        match env.duration with
        | some d => (d : ℚ) / (AV_TIME_BASE : ℚ)
        | none => 0 } _ rfl h

/-- C12 (the code departs): a mono file on a device that opens with the
requested format, 44100 Hz and 1 channel.  `loadFile` succeeds; the resampler
is configured for the negotiated rate but for 2 output channels, not the
negotiated 1.  For a frame of 1024 converted samples `decodeAudioFrame` sizes
the output at 1024 x 1 x 2 = 2048 bytes while the resampler emits
1024 x 2 x 2 = 4096. -/
theorem resampler_is_stereo_on_mono_device :
    (loadFile envMono "mono.mp3" MusicPlayer.init).ret = true ∧
    (loadFile envMono "mono.mp3" MusicPlayer.init).st.m_audioSpec = ⟨44100, 1, 8192⟩ ∧
    (loadFile envMono "mono.mp3" MusicPlayer.init).st.m_swrContext
      = some ⟨2, 44100, 1, 44100⟩ ∧
    decodeAudioFrame (loadFile envMono "mono.mp3" MusicPlayer.init).st frame1024
      = (1024, 2048) ∧
    swrEmittedBytes ⟨2, 44100, 1, 44100⟩ 1024 = 4096 := by
  refine ⟨?_, ?_, ?_, ?_, ?_⟩ <;> decide

/-! ### Volume scaling -/

/-- Truncation of a non-negative rational is its floor. -/
theorem truncQ_of_nonneg (x : ℚ) (h : 0 ≤ x) : truncQ x = ⌊x⌋ := by
  unfold truncQ
  rw [Rat.floor_def]
  exact Int.tdiv_eq_ediv (Rat.num_nonneg.mpr h) (Int.natCast_nonneg _)

/-- Truncation is odd. -/
theorem truncQ_neg (x : ℚ) : truncQ (-x) = -truncQ x := by
  unfold truncQ
  rw [Rat.num_neg_eq_neg_num, Rat.neg_den, Int.neg_tdiv]

/-- Truncation keeps a value between 0 and an integer bound. -/
theorem truncQ_bounds (x : ℚ) (m : Int) (h0 : 0 ≤ x) (hm : x ≤ m) :
    0 ≤ truncQ x ∧ truncQ x ≤ m := by
  rw [truncQ_of_nonneg x h0]
  refine ⟨Int.floor_nonneg.mpr h0, ?_⟩
  have h1 : ((⌊x⌋ : Int) : ℚ) ≤ m := le_trans (Int.floor_le x) hm
  exact_mod_cast h1

/-- Rounding to the nearest integer does not cross an integer. -/
theorem roundHalfEven_le (z : ℚ) (m : Int) (h : z ≤ m) : roundHalfEven z ≤ m := by
  unfold roundHalfEven
  simp only []
  have hf : ⌊z⌋ ≤ m := by
    have : ((⌊z⌋ : Int) : ℚ) ≤ m := le_trans (Int.floor_le z) h
    exact_mod_cast this
  rcases lt_or_eq_of_le hf with hlt | heq
  · split_ifs <;> omega
  · have hz : z = m := le_antisymm h (by rw [← heq]; exact Int.floor_le z)
    have hr : z - (⌊z⌋ : ℚ) < 1 / 2 := by
      rw [heq, hz]; norm_num
    rw [if_pos hr]
    exact hf

/-- Rounding to the nearest integer does not go below an integer under the
value. -/
theorem le_roundHalfEven (z : ℚ) (m : Int) (h : (m : ℚ) ≤ z) : m ≤ roundHalfEven z := by
  unfold roundHalfEven
  simp only []
  have hf : m ≤ ⌊z⌋ := Int.le_floor.mpr h
  split_ifs <;> omega

/-- The exponent found is the smallest normal one or that of a power of two
not above `x`. -/
theorem binade_spec (x : ℚ) (n : Nat) :
    binade x n = -126 ∨ (2 : ℚ) ^ (binade x n) ≤ x := by
  induction n with
  | zero => left; rfl
  | succ n ih =>
    unfold binade
    by_cases h : (2 : ℚ) ^ ((n : Int) - 126) ≤ x
    · rw [if_pos h]; right; exact h
    · rw [if_neg h]; exact ih

/-- The exponent found is not above that of a power of two bounding `x`. -/
theorem binade_le (x : ℚ) (n : Nat) (k : Int) (hk : -126 ≤ k) (hx : x ≤ (2 : ℚ) ^ k) :
    binade x n ≤ k := by
  rcases binade_spec x n with h | h
  · rw [h]; exact hk
  · exact (zpow_le_zpow_iff_right₀ (by norm_num : (1 : ℚ) < 2)).mp (le_trans h hx)

/-- Rounding to `float` does not cross an integer, for magnitudes up to
`2^23`. -/
theorem roundF32_bounds (y : ℚ) (m : Int) (hy : |y| ≤ (2 : ℚ) ^ (23 : Int)) :
    (y ≤ m → roundF32 y ≤ m) ∧ ((m : ℚ) ≤ y → (m : ℚ) ≤ roundF32 y) := by
  have he : binade |y| 254 ≤ 23 := binade_le |y| 254 23 (by norm_num) hy
  obtain ⟨j, hj⟩ : ∃ j : Nat, (j : Int) = 23 - binade |y| 254 :=
    ⟨(23 - binade |y| 254).toNat, Int.toNat_of_nonneg (by omega)⟩
  have hulp : (2 : ℚ) ^ (binade |y| 254 - 23) = ((2 : ℚ) ^ j)⁻¹ := by
    rw [show binade |y| 254 - 23 = -(j : Int) by omega, zpow_neg, zpow_natCast]
  have hP : (0 : ℚ) < (2 : ℚ) ^ j := by positivity
  have hr : roundF32 y = (roundHalfEven (y * (2 : ℚ) ^ j) : ℚ) / (2 : ℚ) ^ j := by
    unfold roundF32
    simp only [hulp, div_inv_eq_mul]
    rw [div_eq_mul_inv]
  have hcast : ((m * 2 ^ j : Int) : ℚ) = (m : ℚ) * (2 : ℚ) ^ j := by push_cast; ring
  rw [hr]
  constructor
  · intro h
    have h1 : y * (2 : ℚ) ^ j ≤ ((m * 2 ^ j : Int) : ℚ) := by
      rw [hcast]; exact mul_le_mul_of_nonneg_right h hP.le
    have h2 := roundHalfEven_le _ _ h1
    have h3 : (roundHalfEven (y * (2 : ℚ) ^ j) : ℚ) ≤ (m : ℚ) * (2 : ℚ) ^ j := by
      rw [← hcast]; exact_mod_cast h2
    exact (div_le_iff₀ hP).mpr h3
  · intro h
    have h1 : ((m * 2 ^ j : Int) : ℚ) ≤ y * (2 : ℚ) ^ j := by
      rw [hcast]; exact mul_le_mul_of_nonneg_right h hP.le
    have h2 := le_roundHalfEven _ _ h1
    have h3 : (m : ℚ) * (2 : ℚ) ^ j ≤ (roundHalfEven (y * (2 : ℚ) ^ j) : ℚ) := by
      rw [← hcast]; exact_mod_cast h2
    exact (le_div_iff₀ hP).mpr h3

/-- The scaled sample `trunc(fl(x * q))` for a volume `q` in `[0, 1]` lies
between 0 and `x`. -/
theorem scale_between (q : ℚ) (x : Int) (hq0 : 0 ≤ q) (hq1 : q ≤ 1)
    (hx : |(x : ℚ)| ≤ (2 : ℚ) ^ (23 : Int)) :
    (0 ≤ x → 0 ≤ truncQ (roundF32 ((x : ℚ) * q)) ∧ truncQ (roundF32 ((x : ℚ) * q)) ≤ x) ∧
    (x ≤ 0 → x ≤ truncQ (roundF32 ((x : ℚ) * q)) ∧ truncQ (roundF32 ((x : ℚ) * q)) ≤ 0) := by
  constructor
  · intro h0
    have hx0 : (0 : ℚ) ≤ (x : ℚ) := by exact_mod_cast h0
    have hy0 : (0 : ℚ) ≤ (x : ℚ) * q := mul_nonneg hx0 hq0
    have hy1 : (x : ℚ) * q ≤ (x : ℚ) := by
      calc (x : ℚ) * q ≤ (x : ℚ) * 1 := mul_le_mul_of_nonneg_left hq1 hx0
        _ = x := mul_one _
    have hy : |(x : ℚ) * q| ≤ (2 : ℚ) ^ (23 : Int) := by
      rw [abs_of_nonneg hy0]
      exact le_trans hy1 (le_trans (le_abs_self _) hx)
    have b1 := (roundF32_bounds ((x : ℚ) * q) x hy).1 hy1
    have b0 := (roundF32_bounds ((x : ℚ) * q) 0 hy).2 (by simpa using hy0)
    exact truncQ_bounds _ x (by simpa using b0) b1
  · intro h0
    have hx0 : (x : ℚ) ≤ 0 := by exact_mod_cast h0
    have hy0 : (x : ℚ) * q ≤ 0 := mul_nonpos_of_nonpos_of_nonneg hx0 hq0
    have hy1 : (x : ℚ) ≤ (x : ℚ) * q := by
      have : (x : ℚ) * 1 ≤ (x : ℚ) * q := mul_le_mul_of_nonpos_left hq1 hx0
      simpa using this
    have hy : |(x : ℚ) * q| ≤ (2 : ℚ) ^ (23 : Int) := by
      rw [abs_of_nonpos hy0]
      have : -((x : ℚ) * q) ≤ -(x : ℚ) := neg_le_neg hy1
      exact le_trans this (le_trans (neg_le_abs _) hx)
    have b1 := (roundF32_bounds ((x : ℚ) * q) x hy).2 hy1
    have b0 := (roundF32_bounds ((x : ℚ) * q) 0 hy).1 (by simpa using hy0)
    have hneg := truncQ_bounds (-roundF32 ((x : ℚ) * q)) (-x)
      (by simpa using b0) (by push_cast; exact neg_le_neg b1)
    rw [truncQ_neg] at hneg
    omega

/-- Volume 0 gives the sample 0. -/
theorem scale_zero (x : Int) : truncQ (roundF32 ((x : ℚ) * 0)) = 0 := by
  have hy : |((x : ℚ) * 0)| ≤ (2 : ℚ) ^ (23 : Int) := by
    rw [mul_zero, abs_zero]; positivity
  have b1 := (roundF32_bounds ((x : ℚ) * 0) 0 hy).1 (by simp)
  have b0 := (roundF32_bounds ((x : ℚ) * 0) 0 hy).2 (by simp)
  have h : roundF32 ((x : ℚ) * 0) = 0 := le_antisymm (by simpa using b1) (by simpa using b0)
  rw [h]
  rfl

/-- The exponent found for a value inside a normal binade. -/
theorem binade_eq (x : ℚ) (k : Int) (n : Nat) (hk : -126 ≤ k) (hn : k < (n : Int) - 126)
    (h1 : (2 : ℚ) ^ k ≤ x) (h2 : x < (2 : ℚ) ^ (k + 1)) : binade x n = k := by
  induction n with
  | zero => simp at hn; omega
  | succ n ih =>
    unfold binade
    by_cases hkn : k = (n : Int) - 126
    · rw [if_pos (by rw [← hkn]; exact h1), hkn]
    · have hlt : k < (n : Int) - 126 := by push_cast at hn; omega
      have hx : ¬ (2 : ℚ) ^ ((n : Int) - 126) ≤ x := by
        intro hc
        have : (2 : ℚ) ^ (k + 1) ≤ (2 : ℚ) ^ ((n : Int) - 126) :=
          zpow_le_zpow_right₀ (by norm_num) (by omega)
        exact absurd (lt_of_le_of_lt (le_trans this hc) h2) (lt_irrefl _)
      rw [if_neg hx]
      exact ih hlt

/-- The `float` product can reach the next integer: 32767 times 0.50001526
(`8388864 / 2^24`) is 16383.99998 as a real and 16384 as a `float`. -/
theorem float_product_rounds_up :
    scaleSample (Fp.fin (8388864 / 16777216)) 32767 = 16384 ∧
    truncQ ((32767 : ℚ) * (8388864 / 16777216)) = 16383 := by
  have hb : binade |(32767 : ℚ) * (8388864 / 16777216)| 254 = 13 := by
    apply binade_eq _ 13 254 (by norm_num) (by norm_num)
    · rw [abs_of_nonneg (by norm_num)]; norm_num
    · rw [abs_of_nonneg (by norm_num)]; norm_num
  constructor
  · simp only [scaleSample, Int.cast_ofNat]
    unfold roundF32
    simp only [hb]
    have h1 : (32767 : ℚ) * (8388864 / 16777216) / (2 : ℚ) ^ ((13 : Int) - 23)
        = 16777216 - 1 / 64 := by norm_num
    rw [h1]
    have h2 : roundHalfEven (16777216 - 1 / 64) = 16777216 := by
      unfold roundHalfEven
      have hf : ⌊((16777216 : ℚ) - 1 / 64)⌋ = 16777215 := by
        rw [Int.floor_eq_iff]; norm_num
      simp only [hf]
      norm_num
    rw [h2]
    have h3 : ((16777216 : Int) : ℚ) * (2 : ℚ) ^ ((13 : Int) - 23) = ((16384 : Int) : ℚ) := by
      norm_num
    rw [h3, truncQ_of_nonneg _ (by norm_num)]
    exact Int.floor_intCast _
  · rw [truncQ_of_nonneg _ (by norm_num), Int.floor_eq_iff]
    norm_num

/-- The sample count of the volume loop is half the byte size, for every size
`av_samples_get_buffer_size` can return. -/
theorem sampleCount_toNat (d : Int) (h : d = -22 ∨ (0 ≤ d ∧ d < 2147483648)) :
    (sampleCount d).toNat = (d / 2).toNat := by
  unfold sampleCount
  simp only []
  norm_num
  rcases h with h | ⟨h0, h1⟩
  · subst h
    decide
  · have e1 : d % 18446744073709551616 = d := Int.emod_eq_of_lt h0 (by omega)
    rw [e1]
    have e2 : d / 2 % 4294967296 = d / 2 := Int.emod_eq_of_lt (by omega) (by omega)
    rw [e2]
    have e3 : d / 2 < 2147483648 := by omega
    rw [if_pos e3]

/-- The byte size is the error code -22 or a non-negative `int`. -/
theorem av_samples_get_buffer_size_range (c n : Int) :
    av_samples_get_buffer_size c n = -22 ∨
    (0 ≤ av_samples_get_buffer_size c n ∧ av_samples_get_buffer_size c n < 2147483648) := by
  unfold av_samples_get_buffer_size
  by_cases h1 : n ≤ 0 ∨ c ≤ 0
  · left; rw [if_pos h1]
  rw [if_neg h1]
  by_cases h2 : c * n > (2147483647 - c) / 2
  · left; rw [if_pos h2]
  rw [if_neg h2]
  right
  push_neg at h1 h2
  have hP : 0 < c * n := mul_pos h1.2 h1.1
  have e : n * 2 * c = 2 * (c * n) := by ring
  rw [e]
  constructor
  · omega
  · omega

/-- Scaling the first `k` values and then taking the first `k` values. -/
theorem take_scaled (g : Int → Int) (k : Nat) (buf : List Int) :
    ((buf.take k).map g ++ buf.drop k).take k = (buf.take k).map g := by
  rw [List.take_append_eq_append_take, List.take_of_length_le (by simp)]
  rcases le_total k buf.length with h | h
  · simp [List.length_take, min_eq_left h]
  · simp [List.drop_eq_nil_of_le h]

/-- What a frame that yields converted samples pushes at a finite volume `v`:
the values in the first `outputSize` bytes of the converted buffer, each one
scaled when `v < 0.99f` and as it is otherwise. -/
theorem processFrame_pushes (p : Packet) (f : Frame) (s : MusicPlayer) (v : ℚ)
    (hvol : s.m_volume = Fp.fin v) (hy : (decodeAudioFrame s f).1 > 0) :
    (processFrame p f s).calls =
      [Call.queueAudio s.m_audioDevice
        ((f.buffer.take ((decodeAudioFrame s f).2 / 2).toNat).map
          (fun x => if v < 16609444 / 16777216 then scaleSample (Fp.fin v) x else x))
        (decodeAudioFrame s f).2] := by
  have hrange : (decodeAudioFrame s f).2 = -22 ∨
      (0 ≤ (decodeAudioFrame s f).2 ∧ (decodeAudioFrame s f).2 < 2147483648) := by
    unfold decodeAudioFrame
    split_ifs
    · right; exact ⟨le_refl _, by norm_num⟩
    · right; exact ⟨le_refl _, by norm_num⟩
    · right; exact ⟨le_refl _, by norm_num⟩
    · exact av_samples_get_buffer_size_range _ _
  have hcount := sampleCount_toNat _ hrange
  unfold processFrame
  simp only []
  rw [if_pos hy]
  by_cases hv : v < 16609444 / 16777216
  · have hlt : Fp.lt s.m_volume vol099 = true := by
      rw [hvol]
      simp [vol099, Fp.lt, hv]
    simp only [hlt, if_true, hv]
    unfold applyVolume
    rw [hcount, take_scaled, hvol]
  · have hlt : ¬ Fp.lt s.m_volume vol099 = true := by
      rw [hvol]
      simp [vol099, Fp.lt, hv]
    simp only [hlt, if_false, hv]
    simp

/-- C15: at a volume `v` in `[0, 1]`, a frame that yields converted samples
pushes, for every sample `x` in the bytes it queues, `x` scaled when
`v < 0.99f` and `x` itself otherwise, that is only for `v` from 0.99 to 1.  The
scaled sample is the `float` product of `x` and `v` truncated toward zero; for
a 16-bit `x` it lies in the 16-bit range and its magnitude is at most that of
`x`; at `v = 0` it is 0. -/
theorem volume_scaling (s : MusicPlayer) (p : Packet) (f : Frame) (v : ℚ)
    (hvol : s.m_volume = Fp.fin v) (hv0 : 0 ≤ v) (hv1 : v ≤ 1)
    (hy : (decodeAudioFrame s f).1 > 0) :
    (processFrame p f s).calls =
      [Call.queueAudio s.m_audioDevice
        ((f.buffer.take ((decodeAudioFrame s f).2 / 2).toNat).map
          (fun x => if v < 16609444 / 16777216 then scaleSample (Fp.fin v) x else x))
        (decodeAudioFrame s f).2] ∧
    ((99 : ℚ) / 100 ≤ 16609444 / 16777216 ∧ (16609444 : ℚ) / 16777216 < 1) ∧
    (∀ x : Int, scaleSample (Fp.fin v) x = truncQ (roundF32 ((x : ℚ) * v))) ∧
    (∀ x : Int, -32768 ≤ x → x ≤ 32767 →
      -32768 ≤ scaleSample (Fp.fin v) x ∧ scaleSample (Fp.fin v) x ≤ 32767 ∧
      |scaleSample (Fp.fin v) x| ≤ |x|) ∧
    (∀ x : Int, scaleSample (Fp.fin 0) x = 0) := by
  refine ⟨processFrame_pushes p f s v hvol hy, by norm_num, fun x => rfl, ?_,
    fun x => scale_zero x⟩
  intro x hx0 hx1
  have hx : |(x : ℚ)| ≤ (2 : ℚ) ^ (23 : Int) := by
    rw [abs_le]
    constructor
    · have : (-32768 : ℚ) ≤ x := by exact_mod_cast hx0
      norm_num
      linarith
    · have : (x : ℚ) ≤ 32767 := by exact_mod_cast hx1
      norm_num
      linarith
  have hb := scale_between v x hv0 hv1 hx
  simp only [scaleSample]
  rcases le_total 0 x with h | h
  · obtain ⟨b0, b1⟩ := hb.1 h
    refine ⟨by omega, by omega, ?_⟩
    rw [abs_of_nonneg b0, abs_of_nonneg h]
    exact b1
  · obtain ⟨b0, b1⟩ := hb.2 h
    refine ⟨by omega, by omega, ?_⟩
    rw [abs_of_nonpos b1, abs_of_nonpos h]
    omega

/-- C15 at volume 1/2 on the playing object: the sample 100 stays in range. -/
theorem volume_scaling_witness :
    -32768 ≤ scaleSample (Fp.fin (1 / 2)) 100 ∧ scaleSample (Fp.fin (1 / 2)) 100 ≤ 32767 ∧
      |scaleSample (Fp.fin (1 / 2)) 100| ≤ |(100 : Int)| :=
  (volume_scaling { decodingState with m_volume := Fp.fin (1 / 2) } packetAt2s frame1024 (1 / 2)
    rfl (by norm_num) (by norm_num) (by decide)).2.2.2.1 100 (by decide) (by decide)

end MusicWave
